import Mathlib

/-!
# Verification of the gRPC transport abstraction layer

This development embeds the transport interface declared in
`src/core/transport/transport.h` and a reference model of its documented
behaviour, and proves the lifecycle, batching, flow-control and setup
properties stated in the design document.

The header declares the interface (types, operation signatures and their
doc comments) but contains no implementation; the dynamic semantics below
is therefore modelled from the specification's words, faithful to the
doc comments in the header.
-/

namespace GrpcTransport

/-- Embeds `grpc_stream_state` from transport.h lines 52-61: the send/recv
closed state of a stream. -/
inductive grpc_stream_state : Type
  /-- the stream is open for sends and receives -/
  | GRPC_STREAM_OPEN : grpc_stream_state
  /-- the stream is closed for sends, but may still receive data -/
  | GRPC_STREAM_SEND_CLOSED : grpc_stream_state
  /-- the stream is closed for receives, but may still send data -/
  | GRPC_STREAM_RECV_CLOSED : grpc_stream_state
  /-- the stream is closed for both sends and receives -/
  | GRPC_STREAM_CLOSED : grpc_stream_state
deriving DecidableEq, Repr

/-- Modelled from the spec: `grpc_stream_op` (declared in stream_op.h, which is
not part of this repository snapshot) — "an ordered sequence of typed
operations (send data, send headers/trailers, send status, receive request)". -/
inductive StreamOp : Type
  | sendData (payload : List Nat)
  | sendHeaders (hs : List (Nat × Nat))
  | sendTrailers (ts : List (Nat × Nat))
  | sendStatus (code : Nat)
  | recvRequest
deriving DecidableEq, Repr

/-- Events of the stream lifecycle state machine of spec section 4.1:
closing the send direction, closing the receive direction, or aborting. -/
inductive StreamEvent : Type
  | closeSend
  | closeRecv
  | abortEv
deriving DecidableEq, Repr

/-- The stream state determined by the two direction-closed flags: only the
combination of send-closed and recv-closed yields `GRPC_STREAM_CLOSED`. -/
def streamStateOf (sendClosed recvClosed : Bool) : grpc_stream_state :=
  match sendClosed, recvClosed with
  | false, false => .GRPC_STREAM_OPEN
  | true,  false => .GRPC_STREAM_SEND_CLOSED
  | false, true  => .GRPC_STREAM_RECV_CLOSED
  | true,  true  => .GRPC_STREAM_CLOSED

/-- Modelled from the spec: the state machine of section 4.1.
`OPEN -closeSend-> SEND_CLOSED`, `OPEN -closeRecv-> RECV_CLOSED`,
the remaining closing event takes a half-closed state to `CLOSED`,
abort takes any non-CLOSED state to `CLOSED`, and `CLOSED` is terminal. -/
def streamStep : grpc_stream_state → StreamEvent → Option grpc_stream_state
  | .GRPC_STREAM_OPEN, .closeSend => some .GRPC_STREAM_SEND_CLOSED
  | .GRPC_STREAM_OPEN, .closeRecv => some .GRPC_STREAM_RECV_CLOSED
  | .GRPC_STREAM_SEND_CLOSED, .closeRecv => some .GRPC_STREAM_CLOSED
  | .GRPC_STREAM_RECV_CLOSED, .closeSend => some .GRPC_STREAM_CLOSED
  | .GRPC_STREAM_OPEN, .abortEv => some .GRPC_STREAM_CLOSED
  | .GRPC_STREAM_SEND_CLOSED, .abortEv => some .GRPC_STREAM_CLOSED
  | .GRPC_STREAM_RECV_CLOSED, .abortEv => some .GRPC_STREAM_CLOSED
  | _, _ => none

/-- There is an edge of the section 4.1 state machine from `s` to `s'`. -/
def canStep (s s' : grpc_stream_state) : Bool :=
  decide (streamStep s .closeSend = some s') ||
  decide (streamStep s .closeRecv = some s') ||
  decide (streamStep s .abortEv = some s')

/-- A batch of stream operations together with the `is_last` flag of
`grpc_transport_send_batch` (transport.h lines 172-186). -/
structure Batch : Type where
  ops : List StreamOp
  is_last : Bool
deriving DecidableEq, Repr

/-- Modelled from the spec: the per-stream record a transport tracks —
the two direction-closed flags, the flow-control gate ("window updates
allowed") flag, the receive window granted so far, and the queue of
submitted batches not yet transmitted (the loopback pipeline). -/
structure StreamRec : Type where
  sendClosed : Bool
  recvClosed : Bool
  allow : Bool
  window : Nat
  pending : List Batch
deriving DecidableEq, Repr

/-- The state-machine state of a stream record. -/
def StreamRec.state (r : StreamRec) : grpc_stream_state :=
  streamStateOf r.sendClosed r.recvClosed

/-- A freshly initialized stream: open in both directions, window updates
allowed, nothing pending. -/
def freshStream : StreamRec :=
  { sendClosed := false, recvClosed := false, allow := true, window := 0, pending := [] }

/-- The record of a stream after abort: both directions closed, pending
batches discarded. -/
def closeRec (r : StreamRec) : StreamRec :=
  { r with sendClosed := true, recvClosed := true, pending := [] }

/-- One `recv_batch` upcall (transport.h lines 99-118): the stream it is
for, the delivered operations, and the reported post-batch `final_state`. -/
structure Delivery : Type where
  stream : Nat
  ops : List StreamOp
  final_state : grpc_stream_state
deriving DecidableEq, Repr

/-- Modelled from the spec: the observable state of a transport — its live
streams (keyed by stream identity), the identities ever used, the
`server_data` tokens supplied by `accept_stream` upcalls and not yet
consumed, the ordered log of `recv_batch` deliveries made so far, whether
`grpc_transport_close` has run, and how many `closed` upcalls have fired. -/
structure Transport : Type where
  streams : List (Nat × StreamRec)
  used : List Nat
  tokens : List Nat
  log : List Delivery
  tclosed : Bool
  closedUpcalls : Nat
deriving DecidableEq, Repr

/-- Look up the record of stream `id` (first matching entry). -/
def lookupStream : List (Nat × StreamRec) → Nat → Option StreamRec
  | [], _ => none
  | (k, r) :: rest, id => if k = id then some r else lookupStream rest id

/-- Replace the record of stream `id` (first matching entry). -/
def updateStream : List (Nat × StreamRec) → Nat → StreamRec → List (Nat × StreamRec)
  | [], _, _ => []
  | (k, r0) :: rest, id, r => if k = id then (k, r) :: rest else (k, r0) :: updateStream rest id r

/-- Remove every entry of stream `id`. -/
def removeStream : List (Nat × StreamRec) → Nat → List (Nat × StreamRec)
  | [], _ => []
  | (k, r) :: rest, id =>
    if k = id then removeStream rest id else (k, r) :: removeStream rest id

/-- The state-machine state of stream `id` of transport `t`, when live. -/
def stateOf (t : Transport) (id : Nat) : Option grpc_stream_state :=
  (lookupStream t.streams id).map StreamRec.state

/-- Modelled from the spec: `grpc_transport_init_stream` (transport.h lines
132-142). Returns 0 on success, a non-zero code on failure. `server_data =
none` denotes a client-initiated stream; `some d` must be a token previously
supplied by an `accept_stream` upcall, consumed on success. Fails on a
closed transport or a reused stream identity. -/
def grpc_transport_init_stream (t : Transport) (id : Nat) (server_data : Option Nat) :
    Transport × Int :=
  if t.tclosed then (t, 1)
  else if id ∈ t.used then (t, 1)
  else
    match server_data with
    | none =>
      ({ t with streams := (id, freshStream) :: t.streams, used := id :: t.used }, 0)
    | some d =>
      if d ∈ t.tokens then
        ({ t with streams := (id, freshStream) :: t.streams, used := id :: t.used,
                  tokens := t.tokens.erase d }, 0)
      else (t, 1)

/-- Modelled from the spec: `grpc_transport_send_batch` (transport.h lines
172-186). Enqueues the batch for transmission; `is_last` marks the final
batch of the send direction, closing it. A send on an unknown stream or
after the send direction closed is a caller error and is ignored. -/
def grpc_transport_send_batch (t : Transport) (id : Nat) (ops : List StreamOp)
    (is_last : Bool) : Transport :=
  match lookupStream t.streams id with
  | none => t
  | some r =>
    if r.sendClosed then t
    else
      let r' := { r with sendClosed := is_last, pending := r.pending ++ [⟨ops, is_last⟩] }
      { t with streams := updateStream t.streams id r' }

/-- Modelled from the spec: the loopback transport transmits the head
pending batch of stream `id` and delivers it through the `recv_batch`
upcall, reporting the post-batch state as `final_state`; delivering the
`is_last` batch closes the receive direction. -/
def deliverPending (t : Transport) (id : Nat) : Transport :=
  match lookupStream t.streams id with
  | none => t
  | some r =>
    if r.recvClosed then t
    else
      match r.pending with
      | [] => t
      | b :: rest =>
        let r' := { r with pending := rest, recvClosed := b.is_last }
        { t with
            streams := updateStream t.streams id r',
            log := t.log ++ [⟨id, b.ops, streamStateOf r.sendClosed b.is_last⟩] }

/-- Modelled from the spec: `grpc_transport_abort_stream` (transport.h lines
196-204). Terminates reading and writing: a final `recv_batch` with no
operations and `final_state = GRPC_STREAM_CLOSED` is delivered locally, and
no more data is presented to the up-layer. A no-op on an already CLOSED or
unknown stream. -/
def grpc_transport_abort_stream (t : Transport) (id : Nat) (_status : Nat) : Transport :=
  match lookupStream t.streams id with
  | none => t
  | some r =>
    if r.state = .GRPC_STREAM_CLOSED then t
    else
      { t with
          streams := updateStream t.streams id (closeRec r),
          log := t.log ++ [⟨id, [], .GRPC_STREAM_CLOSED⟩] }

/-- Modelled from the spec: `grpc_transport_set_allow_window_updates`
(transport.h lines 157-170). Toggles the per-stream flow-control gate and
nothing else. -/
def grpc_transport_set_allow_window_updates (t : Transport) (id : Nat) (allow : Bool) :
    Transport :=
  match lookupStream t.streams id with
  | none => t
  | some r => { t with streams := updateStream t.streams id ({ r with allow := allow }) }

/-- Modelled from the spec: the transport grants new receive window to the
peer only while the flow-control gate allows it; the gate is advisory for
future grants. -/
def grantWindow (t : Transport) (id : Nat) (n : Nat) : Transport :=
  match lookupStream t.streams id with
  | none => t
  | some r =>
    if r.allow then
      { t with streams := updateStream t.streams id ({ r with window := r.window + n }) }
    else t

/-- Modelled from the spec: the `accept_stream` upcall (transport.h lines
83-97) supplies an opaque `server_data` token to be passed back to
`grpc_transport_init_stream`. -/
def acceptStream (t : Transport) (d : Nat) : Transport :=
  { t with tokens := d :: t.tokens }

/-- Modelled from the spec: `grpc_transport_close` (transport.h lines
213-214): "Close a transport. Aborts all open streams." Aborting every
stream delivers the terminal batches; the `closed` upcall then fires.
A second close is a no-op, so `closed` fires at most once. -/
def grpc_transport_close (t : Transport) : Transport :=
  if t.tclosed then t
  else
    let t' := (t.streams.map Prod.fst).foldl
      (fun acc id => grpc_transport_abort_stream acc id 0) t
    { t' with tclosed := true, closedUpcalls := t'.closedUpcalls + 1 }

/-- Modelled from the spec: `grpc_transport_destroy_stream` (transport.h
lines 144-155). Requires that a `recv_batch` with `final_state =
GRPC_STREAM_CLOSED` has been received; releases the stream record. -/
def grpc_transport_destroy_stream (t : Transport) (id : Nat) : Transport :=
  match lookupStream t.streams id with
  | none => t
  | some r =>
    if r.state = .GRPC_STREAM_CLOSED then { t with streams := removeStream t.streams id }
    else t

/-- The commands of the transport model: the operation surface of
transport.h plus the transport-internal transmission and stream-acceptance
events that drive deliveries. -/
inductive Cmd : Type
  | initStream (id : Nat) (server_data : Option Nat)
  | sendBatch (id : Nat) (ops : List StreamOp) (is_last : Bool)
  | deliver (id : Nat)
  | abortStream (id : Nat) (status : Nat)
  | setAllowWindowUpdates (id : Nat) (allow : Bool)
  | grantWindow (id : Nat) (n : Nat)
  | acceptStream (d : Nat)
  | closeTransport
  | destroyStream (id : Nat)
deriving DecidableEq, Repr

/-- One step of the transport model. -/
def step (t : Transport) : Cmd → Transport
  | .initStream id sd => (grpc_transport_init_stream t id sd).1
  | .sendBatch id ops il => grpc_transport_send_batch t id ops il
  | .deliver id => deliverPending t id
  | .abortStream id st => grpc_transport_abort_stream t id st
  | .setAllowWindowUpdates id a => grpc_transport_set_allow_window_updates t id a
  | .grantWindow id n => grantWindow t id n
  | .acceptStream d => acceptStream t d
  | .closeTransport => grpc_transport_close t
  | .destroyStream id => grpc_transport_destroy_stream t id

/-- The freshly created transport: no streams, no history. -/
def init0 : Transport :=
  { streams := [], used := [], tokens := [], log := [], tclosed := false, closedUpcalls := 0 }

/-- Run the model from an arbitrary transport state. -/
def runFrom (t : Transport) (cs : List Cmd) : Transport := cs.foldl step t

/-- Run the model from the freshly created transport. -/
def run (cs : List Cmd) : Transport := runFrom init0 cs

/-- The deliveries of the log that are for stream `id`, in order. -/
def deliveriesFor : List Delivery → Nat → List Delivery
  | [], _ => []
  | d :: rest, id =>
    if d.stream = id then d :: deliveriesFor rest id else deliveriesFor rest id

/-- The log contains a delivery for stream `id` with
`final_state = GRPC_STREAM_CLOSED`. -/
def hasClosedFor : List Delivery → Nat → Bool
  | [], _ => false
  | d :: rest, id =>
    if d.stream = id ∧ d.final_state = .GRPC_STREAM_CLOSED then true else hasClosedFor rest id

/-- The log contains no delivery at all for stream `id`. -/
def noneFor : List Delivery → Nat → Bool
  | [], _ => true
  | d :: rest, id => if d.stream = id then false else noneFor rest id

/-- Every delivery with `final_state = GRPC_STREAM_CLOSED` is the last
delivery of the log for its stream. -/
def closedIsLast : List Delivery → Bool
  | [] => true
  | d :: rest =>
    (if d.final_state = grpc_stream_state.GRPC_STREAM_CLOSED then noneFor rest d.stream
     else true) && closedIsLast rest

/-- How many deliveries with `final_state = GRPC_STREAM_CLOSED` the log
holds for stream `id`. -/
def closedCount : List Delivery → Nat → Nat
  | [], _ => 0
  | d :: rest, id =>
    (if d.stream = id ∧ d.final_state = .GRPC_STREAM_CLOSED then 1 else 0) + closedCount rest id

/-! ## Association-list lemmas -/

theorem lookup_update_self (l : List (Nat × StreamRec)) (id : Nat) (r : StreamRec) :
    lookupStream (updateStream l id r) id = (lookupStream l id).map fun _ => r := by
  induction l with
  | nil => rfl
  | cons p rest ih =>
    obtain ⟨k, r0⟩ := p
    by_cases h : k = id <;> simp [updateStream, lookupStream, h, ih]

theorem lookup_update_ne (l : List (Nat × StreamRec)) (id id' : Nat) (r : StreamRec)
    (h : id' ≠ id) :
    lookupStream (updateStream l id r) id' = lookupStream l id' := by
  induction l with
  | nil => rfl
  | cons p rest ih =>
    obtain ⟨k, r0⟩ := p
    by_cases hk : k = id
    · subst hk
      simp [updateStream, lookupStream, Ne.symm h]
    · by_cases hk' : k = id' <;>
        simp [updateStream, lookupStream, hk, hk', h, Ne.symm h, ih]

theorem update_update (l : List (Nat × StreamRec)) (id : Nat) (r1 r2 : StreamRec) :
    updateStream (updateStream l id r1) id r2 = updateStream l id r2 := by
  induction l with
  | nil => rfl
  | cons p rest ih =>
    obtain ⟨k, r0⟩ := p
    by_cases h : k = id <;> simp [updateStream, h, ih]

theorem update_keys (l : List (Nat × StreamRec)) (id : Nat) (r : StreamRec) :
    (updateStream l id r).map Prod.fst = l.map Prod.fst := by
  induction l with
  | nil => rfl
  | cons p rest ih =>
    obtain ⟨k, r0⟩ := p
    by_cases h : k = id <;> simp [updateStream, h, ih]

theorem lookup_mem_keys (l : List (Nat × StreamRec)) (id : Nat) (r : StreamRec)
    (h : lookupStream l id = some r) : id ∈ l.map Prod.fst := by
  induction l with
  | nil => simp [lookupStream] at h
  | cons p rest ih =>
    obtain ⟨k, r0⟩ := p
    by_cases hk : k = id
    · simp [hk]
    · simp [lookupStream, hk] at h
      simp [ih h]

theorem lookup_remove_self (l : List (Nat × StreamRec)) (id : Nat) :
    lookupStream (removeStream l id) id = none := by
  induction l with
  | nil => rfl
  | cons p rest ih =>
    obtain ⟨k, r0⟩ := p
    by_cases h : k = id <;> simp [removeStream, lookupStream, h, ih]

theorem lookup_remove_ne (l : List (Nat × StreamRec)) (id id' : Nat) (h : id' ≠ id) :
    lookupStream (removeStream l id) id' = lookupStream l id' := by
  induction l with
  | nil => rfl
  | cons p rest ih =>
    obtain ⟨k, r0⟩ := p
    by_cases hk : k = id
    · subst hk
      simp [removeStream, lookupStream, Ne.symm h, ih]
    · by_cases hk' : k = id' <;>
        simp [removeStream, lookupStream, hk, hk', h, Ne.symm h, ih]

/-! ## Delivery-log lemmas -/

theorem deliveriesFor_append (l m : List Delivery) (id : Nat) :
    deliveriesFor (l ++ m) id = deliveriesFor l id ++ deliveriesFor m id := by
  induction l with
  | nil => rfl
  | cons d rest ih =>
    by_cases h : d.stream = id <;> simp [deliveriesFor, h, ih]

theorem hasClosedFor_append (l m : List Delivery) (id : Nat) :
    hasClosedFor (l ++ m) id = (hasClosedFor l id || hasClosedFor m id) := by
  induction l with
  | nil => rfl
  | cons d rest ih =>
    by_cases h : d.stream = id ∧ d.final_state = .GRPC_STREAM_CLOSED <;>
      simp [hasClosedFor, h, ih]

theorem noneFor_append (l m : List Delivery) (id : Nat) :
    noneFor (l ++ m) id = (noneFor l id && noneFor m id) := by
  induction l with
  | nil => rfl
  | cons d rest ih =>
    by_cases h : d.stream = id <;> simp [noneFor, h, ih]

theorem closedCount_append (l m : List Delivery) (id : Nat) :
    closedCount (l ++ m) id = closedCount l id + closedCount m id := by
  induction l with
  | nil => simp [closedCount]
  | cons d rest ih =>
    by_cases h : d.stream = id ∧ d.final_state = .GRPC_STREAM_CLOSED
    · simp [closedCount, h, ih]
      omega
    · simp [closedCount, h, ih]

theorem closedCount_eq_zero (l : List Delivery) (id : Nat)
    (h : hasClosedFor l id = false) : closedCount l id = 0 := by
  induction l with
  | nil => rfl
  | cons d rest ih =>
    by_cases hd : d.stream = id ∧ d.final_state = .GRPC_STREAM_CLOSED
    · simp [hasClosedFor, hd] at h
    · simp [hasClosedFor, hd] at h
      simp [closedCount, hd, ih h]

theorem hasClosed_mem (l : List Delivery) (id : Nat) (h : hasClosedFor l id = true) :
    ∃ d ∈ l, d.stream = id := by
  induction l with
  | nil => simp [hasClosedFor] at h
  | cons d rest ih =>
    by_cases hd : d.stream = id ∧ d.final_state = .GRPC_STREAM_CLOSED
    · exact ⟨d, by simp, hd.1⟩
    · simp [hasClosedFor, hd] at h
      obtain ⟨d', hd', hs⟩ := ih h
      exact ⟨d', by simp [hd'], hs⟩

theorem closedIsLast_append_one (l : List Delivery) (d : Delivery)
    (hl : closedIsLast l = true) (hnc : hasClosedFor l d.stream = false) :
    closedIsLast (l ++ [d]) = true := by
  induction l with
  | nil => simp [closedIsLast, noneFor]
  | cons e rest ih =>
    by_cases he : e.final_state = grpc_stream_state.GRPC_STREAM_CLOSED
    · simp [closedIsLast, he] at hl ⊢
      by_cases hes : e.stream = d.stream ∧ e.final_state = .GRPC_STREAM_CLOSED
      · simp [hasClosedFor, hes] at hnc
      · simp [hasClosedFor, hes] at hnc
        refine ⟨?_, ih hl.2 hnc⟩
        rw [noneFor_append]
        simp [hl.1, noneFor]
        intro hds
        exact hes ⟨hds.symm, he⟩
    · simp [closedIsLast, he] at hl ⊢
      by_cases hes : e.stream = d.stream ∧ e.final_state = .GRPC_STREAM_CLOSED
      · exact absurd hes.2 he
      · simp [hasClosedFor, hes] at hnc
        exact ih hl hnc

/-! ## The transport invariant -/

/-- A stream record is CLOSED exactly when both directions are closed. -/
theorem state_eq_closed_iff (r : StreamRec) :
    r.state = .GRPC_STREAM_CLOSED ↔ (r.sendClosed = true ∧ r.recvClosed = true) := by
  cases hs : r.sendClosed <;> cases hr : r.recvClosed <;>
    simp [StreamRec.state, streamStateOf, hs, hr]

/-- The inductive invariant of the transport model: stream identities are
registered, the receive direction closes only after the send direction
(loopback), pending batches of an open send direction are never marked
last, a stream whose log holds a terminal delivery is receive-closed, a
fully closed stream has logged its terminal delivery, delivered streams
are registered, terminal deliveries are last per stream, a closed
transport has only fully closed streams, and the `closed` upcall count
matches the closed flag. -/
structure Inv (t : Transport) : Prop where
  usedAll : ∀ id r, lookupStream t.streams id = some r → id ∈ t.used
  recvSend : ∀ id r, lookupStream t.streams id = some r →
      r.recvClosed = true → r.sendClosed = true
  pendLast : ∀ id r, lookupStream t.streams id = some r → r.sendClosed = false →
      ∀ b ∈ r.pending, b.is_last = false
  closedRecv : ∀ id r, lookupStream t.streams id = some r →
      hasClosedFor t.log id = true → r.recvClosed = true
  stateClosed : ∀ id r, lookupStream t.streams id = some r → r.sendClosed = true →
      r.recvClosed = true → hasClosedFor t.log id = true
  logUsed : ∀ d ∈ t.log, d.stream ∈ t.used
  lastClosed : closedIsLast t.log = true
  tclosedAll : t.tclosed = true → ∀ id r, lookupStream t.streams id = some r →
      r.sendClosed = true ∧ r.recvClosed = true
  upcalls : t.closedUpcalls = if t.tclosed then 1 else 0

/-- The freshly created transport satisfies the invariant. -/
theorem inv_init0 : Inv init0 := by
  refine ⟨?_, ?_, ?_, ?_, ?_, ?_, ?_, ?_, ?_⟩ <;>
    simp [init0, lookupStream, closedIsLast]

/-- Updating a stream record without touching its closed flags or pending
queue preserves the invariant. -/
theorem inv_update_cosmetic (t : Transport) (id : Nat) (r r' : StreamRec)
    (hl : lookupStream t.streams id = some r) (h : Inv t)
    (hsc : r'.sendClosed = r.sendClosed) (hrc : r'.recvClosed = r.recvClosed)
    (hp : r'.pending = r.pending) :
    Inv { t with streams := updateStream t.streams id r' } := by
  refine ⟨?_, ?_, ?_, ?_, ?_, ?_, ?_, ?_, ?_⟩ <;> dsimp only
  · intro id' r'' hl''
    by_cases hid : id' = id
    · subst hid
      exact h.usedAll id' r hl
    · rw [lookup_update_ne _ _ _ _ hid] at hl''
      exact h.usedAll id' r'' hl''
  · intro id' r'' hl'' hrc''
    by_cases hid : id' = id
    · subst hid
      rw [lookup_update_self, hl, Option.map_some'] at hl''
      cases hl''
      rw [hsc]
      exact h.recvSend id' r hl (hrc ▸ hrc'')
    · rw [lookup_update_ne _ _ _ _ hid] at hl''
      exact h.recvSend id' r'' hl'' hrc''
  · intro id' r'' hl'' hsc'' b hb
    by_cases hid : id' = id
    · subst hid
      rw [lookup_update_self, hl, Option.map_some'] at hl''
      cases hl''
      exact h.pendLast id' r hl (hsc ▸ hsc'') b (hp ▸ hb)
    · rw [lookup_update_ne _ _ _ _ hid] at hl''
      exact h.pendLast id' r'' hl'' hsc'' b hb
  · intro id' r'' hl'' hcl
    by_cases hid : id' = id
    · subst hid
      rw [lookup_update_self, hl, Option.map_some'] at hl''
      cases hl''
      rw [hrc]
      exact h.closedRecv id' r hl hcl
    · rw [lookup_update_ne _ _ _ _ hid] at hl''
      exact h.closedRecv id' r'' hl'' hcl
  · intro id' r'' hl'' hsc'' hrc''
    by_cases hid : id' = id
    · subst hid
      rw [lookup_update_self, hl, Option.map_some'] at hl''
      cases hl''
      exact h.stateClosed id' r hl (hsc ▸ hsc'') (hrc ▸ hrc'')
    · rw [lookup_update_ne _ _ _ _ hid] at hl''
      exact h.stateClosed id' r'' hl'' hsc'' hrc''
  · exact h.logUsed
  · exact h.lastClosed
  · intro htc id' r'' hl''
    by_cases hid : id' = id
    · subst hid
      rw [lookup_update_self, hl, Option.map_some'] at hl''
      cases hl''
      have := h.tclosedAll htc id' r hl
      exact ⟨hsc.trans this.1, hrc.trans this.2⟩
    · rw [lookup_update_ne _ _ _ _ hid] at hl''
      exact h.tclosedAll htc id' r'' hl''
  · exact h.upcalls

/-- `grpc_transport_set_allow_window_updates` preserves the invariant. -/
theorem inv_setAllow (t : Transport) (id : Nat) (a : Bool) (h : Inv t) :
    Inv (grpc_transport_set_allow_window_updates t id a) := by
  unfold grpc_transport_set_allow_window_updates
  cases hl : lookupStream t.streams id with
  | none => exact h
  | some r => exact inv_update_cosmetic t id r _ hl h rfl rfl rfl

/-- `grantWindow` preserves the invariant. -/
theorem inv_grant (t : Transport) (id : Nat) (n : Nat) (h : Inv t) :
    Inv (grantWindow t id n) := by
  unfold grantWindow
  cases hl : lookupStream t.streams id with
  | none => exact h
  | some r =>
    show Inv (if r.allow = true then
        { t with streams := updateStream t.streams id ({ r with window := r.window + n }) }
      else t)
    by_cases ha : r.allow
    · rw [if_pos ha]
      exact inv_update_cosmetic t id r _ hl h rfl rfl rfl
    · rw [if_neg ha]
      exact h

/-- `acceptStream` preserves the invariant. -/
theorem inv_accept (t : Transport) (d : Nat) (h : Inv t) : Inv (acceptStream t d) := by
  refine ⟨?_, ?_, ?_, ?_, ?_, ?_, ?_, ?_, ?_⟩ <;> dsimp only [acceptStream] <;>
    first
      | exact h.usedAll
      | exact h.recvSend
      | exact h.pendLast
      | exact h.closedRecv
      | exact h.stateClosed
      | exact h.logUsed
      | exact h.lastClosed
      | exact h.tclosedAll
      | exact h.upcalls

/-- `grpc_transport_destroy_stream` preserves the invariant. -/
theorem inv_destroy (t : Transport) (id : Nat) (h : Inv t) :
    Inv (grpc_transport_destroy_stream t id) := by
  unfold grpc_transport_destroy_stream
  cases hl : lookupStream t.streams id with
  | none => exact h
  | some r =>
    show Inv (if r.state = grpc_stream_state.GRPC_STREAM_CLOSED then
        { t with streams := removeStream t.streams id }
      else t)
    by_cases hcl : r.state = grpc_stream_state.GRPC_STREAM_CLOSED
    · rw [if_pos hcl]
      refine ⟨?_, ?_, ?_, ?_, ?_, ?_, ?_, ?_, ?_⟩ <;> dsimp only
      · intro id' r'' hl''
        by_cases hid : id' = id
        · subst hid
          rw [lookup_remove_self] at hl''
          cases hl''
        · rw [lookup_remove_ne _ _ _ hid] at hl''
          exact h.usedAll id' r'' hl''
      · intro id' r'' hl'' hrc''
        by_cases hid : id' = id
        · subst hid
          rw [lookup_remove_self] at hl''
          cases hl''
        · rw [lookup_remove_ne _ _ _ hid] at hl''
          exact h.recvSend id' r'' hl'' hrc''
      · intro id' r'' hl'' hsc'' b hb
        by_cases hid : id' = id
        · subst hid
          rw [lookup_remove_self] at hl''
          cases hl''
        · rw [lookup_remove_ne _ _ _ hid] at hl''
          exact h.pendLast id' r'' hl'' hsc'' b hb
      · intro id' r'' hl'' hcl'
        by_cases hid : id' = id
        · subst hid
          rw [lookup_remove_self] at hl''
          cases hl''
        · rw [lookup_remove_ne _ _ _ hid] at hl''
          exact h.closedRecv id' r'' hl'' hcl'
      · intro id' r'' hl'' hsc'' hrc''
        by_cases hid : id' = id
        · subst hid
          rw [lookup_remove_self] at hl''
          cases hl''
        · rw [lookup_remove_ne _ _ _ hid] at hl''
          exact h.stateClosed id' r'' hl'' hsc'' hrc''
      · exact h.logUsed
      · exact h.lastClosed
      · intro htc id' r'' hl''
        by_cases hid : id' = id
        · subst hid
          rw [lookup_remove_self] at hl''
          cases hl''
        · rw [lookup_remove_ne _ _ _ hid] at hl''
          exact h.tclosedAll htc id' r'' hl''
      · exact h.upcalls
    · rw [if_neg hcl]
      exact h

/-- Adding a fresh stream under a fresh identity preserves the invariant. -/
theorem inv_add_fresh (t : Transport) (id : Nat) (tk : List Nat)
    (h : Inv t) (htc : t.tclosed = false) (hu : id ∉ t.used) :
    Inv { t with streams := (id, freshStream) :: t.streams,
                 used := id :: t.used, tokens := tk } := by
  have hnc : hasClosedFor t.log id = false := by
    cases hnc : hasClosedFor t.log id
    · rfl
    · obtain ⟨d, hd, hs⟩ := hasClosed_mem t.log id hnc
      exact absurd (hs ▸ h.logUsed d hd) hu
  refine ⟨?_, ?_, ?_, ?_, ?_, ?_, ?_, ?_, ?_⟩ <;> dsimp only
  · intro id' r' hl'
    by_cases hid : id = id'
    · simp [hid]
    · simp only [lookupStream, if_neg hid] at hl'
      exact List.mem_cons_of_mem _ (h.usedAll id' r' hl')
  · intro id' r' hl' hrc
    by_cases hid : id = id'
    · simp only [lookupStream, if_pos hid] at hl'
      cases hl'
      simp [freshStream] at hrc
    · simp only [lookupStream, if_neg hid] at hl'
      exact h.recvSend id' r' hl' hrc
  · intro id' r' hl' hsc b hb
    by_cases hid : id = id'
    · simp only [lookupStream, if_pos hid] at hl'
      cases hl'
      simp [freshStream] at hb
    · simp only [lookupStream, if_neg hid] at hl'
      exact h.pendLast id' r' hl' hsc b hb
  · intro id' r' hl' hcl
    by_cases hid : id = id'
    · subst hid
      rw [hcl] at hnc
      cases hnc
    · simp only [lookupStream, if_neg hid] at hl'
      exact h.closedRecv id' r' hl' hcl
  · intro id' r' hl' hsc hrc
    by_cases hid : id = id'
    · simp only [lookupStream, if_pos hid] at hl'
      cases hl'
      simp [freshStream] at hsc
    · simp only [lookupStream, if_neg hid] at hl'
      exact h.stateClosed id' r' hl' hsc hrc
  · intro d hd
    exact List.mem_cons_of_mem _ (h.logUsed d hd)
  · exact h.lastClosed
  · intro htc'
    rw [htc] at htc'
    cases htc'
  · simpa using h.upcalls

/-- `grpc_transport_init_stream` preserves the invariant. -/
theorem inv_initStream (t : Transport) (id : Nat) (sd : Option Nat) (h : Inv t) :
    Inv (grpc_transport_init_stream t id sd).1 := by
  unfold grpc_transport_init_stream
  by_cases htc : t.tclosed
  · rw [if_pos htc]
    exact h
  · rw [if_neg htc]
    by_cases hu : id ∈ t.used
    · rw [if_pos hu]
      exact h
    · rw [if_neg hu]
      have htc' : t.tclosed = false := by simpa using htc
      cases sd with
      | none => exact inv_add_fresh t id t.tokens h htc' hu
      | some d =>
        show Inv ((if d ∈ t.tokens then
            ({ t with streams := (id, freshStream) :: t.streams, used := id :: t.used,
                      tokens := t.tokens.erase d }, (0 : Int))
          else (t, 1)).1)
        by_cases hd : d ∈ t.tokens
        · rw [if_pos hd]
          exact inv_add_fresh t id (t.tokens.erase d) h htc' hu
        · rw [if_neg hd]
          exact h

/-- `grpc_transport_send_batch` preserves the invariant. -/
theorem inv_send (t : Transport) (id : Nat) (ops : List StreamOp) (il : Bool) (h : Inv t) :
    Inv (grpc_transport_send_batch t id ops il) := by
  unfold grpc_transport_send_batch
  cases hl : lookupStream t.streams id with
  | none => exact h
  | some r =>
    show Inv (if r.sendClosed = true then t
      else { t with streams :=
                      updateStream t.streams id
                        ({ r with sendClosed := il,
                                  pending := r.pending ++ [⟨ops, il⟩] }) })
    by_cases hsc : r.sendClosed
    · rw [if_pos hsc]
      exact h
    · rw [if_neg hsc]
      have hsc' : r.sendClosed = false := by simpa using hsc
      have hrc : r.recvClosed = false := by
        cases hb : r.recvClosed
        · rfl
        · have := h.recvSend id r hl hb
          rw [hsc'] at this
          cases this
      have htc : t.tclosed = false := by
        cases hb : t.tclosed
        · rfl
        · have := (h.tclosedAll hb id r hl).1
          rw [hsc'] at this
          cases this
      have hnc : hasClosedFor t.log id = false := by
        cases hb : hasClosedFor t.log id
        · rfl
        · have := h.closedRecv id r hl hb
          rw [hrc] at this
          cases this
      refine ⟨?_, ?_, ?_, ?_, ?_, ?_, ?_, ?_, ?_⟩ <;> dsimp only
      · intro id' r'' hl''
        by_cases hid : id' = id
        · subst hid
          exact h.usedAll id' r hl
        · rw [lookup_update_ne _ _ _ _ hid] at hl''
          exact h.usedAll id' r'' hl''
      · intro id' r'' hl'' hrc''
        by_cases hid : id' = id
        · subst hid
          rw [lookup_update_self, hl, Option.map_some'] at hl''
          cases hl''
          rw [hrc] at hrc''
          cases hrc''
        · rw [lookup_update_ne _ _ _ _ hid] at hl''
          exact h.recvSend id' r'' hl'' hrc''
      · intro id' r'' hl'' hsc'' b hb
        by_cases hid : id' = id
        · subst hid
          rw [lookup_update_self, hl, Option.map_some'] at hl''
          cases hl''
          simp only [List.mem_append, List.mem_singleton] at hb
          cases hb with
          | inl hb' => exact h.pendLast id' r hl hsc' b hb'
          | inr hb' =>
            subst hb'
            exact hsc''
        · rw [lookup_update_ne _ _ _ _ hid] at hl''
          exact h.pendLast id' r'' hl'' hsc'' b hb
      · intro id' r'' hl'' hcl
        by_cases hid : id' = id
        · subst hid
          rw [hcl] at hnc
          cases hnc
        · rw [lookup_update_ne _ _ _ _ hid] at hl''
          exact h.closedRecv id' r'' hl'' hcl
      · intro id' r'' hl'' hsc'' hrc''
        by_cases hid : id' = id
        · subst hid
          rw [lookup_update_self, hl, Option.map_some'] at hl''
          cases hl''
          rw [hrc] at hrc''
          cases hrc''
        · rw [lookup_update_ne _ _ _ _ hid] at hl''
          exact h.stateClosed id' r'' hl'' hsc'' hrc''
      · exact h.logUsed
      · exact h.lastClosed
      · intro htc''
        rw [htc] at htc''
        cases htc''
      · exact h.upcalls

/-! ## Equation lemmas for the operations -/

theorem send_noop_none (t : Transport) (id : Nat) (ops : List StreamOp) (il : Bool)
    (hl : lookupStream t.streams id = none) :
    grpc_transport_send_batch t id ops il = t := by
  simp [grpc_transport_send_batch, hl]

theorem send_noop_closed (t : Transport) (id : Nat) (ops : List StreamOp) (il : Bool)
    (r : StreamRec) (hl : lookupStream t.streams id = some r) (hsc : r.sendClosed = true) :
    grpc_transport_send_batch t id ops il = t := by
  simp [grpc_transport_send_batch, hl, hsc]

theorem send_eq (t : Transport) (id : Nat) (ops : List StreamOp) (il : Bool)
    (r : StreamRec) (hl : lookupStream t.streams id = some r) (hsc : r.sendClosed = false) :
    grpc_transport_send_batch t id ops il =
      { t with streams :=
                 updateStream t.streams id
                   ({ r with sendClosed := il, pending := r.pending ++ [⟨ops, il⟩] }) } := by
  simp [grpc_transport_send_batch, hl, hsc]

theorem deliver_noop_none (t : Transport) (id : Nat)
    (hl : lookupStream t.streams id = none) : deliverPending t id = t := by
  simp [deliverPending, hl]

theorem deliver_noop_recvClosed (t : Transport) (id : Nat) (r : StreamRec)
    (hl : lookupStream t.streams id = some r) (hrc : r.recvClosed = true) :
    deliverPending t id = t := by
  simp [deliverPending, hl, hrc]

theorem deliver_noop_empty (t : Transport) (id : Nat) (r : StreamRec)
    (hl : lookupStream t.streams id = some r) (hp : r.pending = []) :
    deliverPending t id = t := by
  simp [deliverPending, hl, hp]

theorem deliver_eq (t : Transport) (id : Nat) (r : StreamRec) (b : Batch)
    (rest : List Batch) (hl : lookupStream t.streams id = some r)
    (hrc : r.recvClosed = false) (hp : r.pending = b :: rest) :
    deliverPending t id =
      { t with streams :=
                 updateStream t.streams id
                   ({ r with pending := rest, recvClosed := b.is_last }),
               log := t.log ++ [⟨id, b.ops, streamStateOf r.sendClosed b.is_last⟩] } := by
  simp [deliverPending, hl, hrc, hp]

theorem abort_noop_none (t : Transport) (id st : Nat)
    (hl : lookupStream t.streams id = none) :
    grpc_transport_abort_stream t id st = t := by
  simp [grpc_transport_abort_stream, hl]

theorem abort_noop_closed (t : Transport) (id st : Nat) (r : StreamRec)
    (hl : lookupStream t.streams id = some r)
    (hcl : r.state = grpc_stream_state.GRPC_STREAM_CLOSED) :
    grpc_transport_abort_stream t id st = t := by
  simp [grpc_transport_abort_stream, hl, hcl]

theorem abort_eq (t : Transport) (id st : Nat) (r : StreamRec)
    (hl : lookupStream t.streams id = some r)
    (hcl : r.state ≠ grpc_stream_state.GRPC_STREAM_CLOSED) :
    grpc_transport_abort_stream t id st =
      { t with streams := updateStream t.streams id (closeRec r),
               log := t.log ++ [⟨id, [], .GRPC_STREAM_CLOSED⟩] } := by
  simp [grpc_transport_abort_stream, hl, hcl]

theorem setAllow_noop_none (t : Transport) (id : Nat) (a : Bool)
    (hl : lookupStream t.streams id = none) :
    grpc_transport_set_allow_window_updates t id a = t := by
  simp [grpc_transport_set_allow_window_updates, hl]

theorem setAllow_eq (t : Transport) (id : Nat) (a : Bool) (r : StreamRec)
    (hl : lookupStream t.streams id = some r) :
    grpc_transport_set_allow_window_updates t id a =
      { t with streams := updateStream t.streams id ({ r with allow := a }) } := by
  simp [grpc_transport_set_allow_window_updates, hl]

theorem grant_noop_disallowed (t : Transport) (id n : Nat) (r : StreamRec)
    (hl : lookupStream t.streams id = some r) (ha : r.allow = false) :
    grantWindow t id n = t := by
  simp [grantWindow, hl, ha]

theorem grant_eq (t : Transport) (id n : Nat) (r : StreamRec)
    (hl : lookupStream t.streams id = some r) (ha : r.allow = true) :
    grantWindow t id n =
      { t with streams := updateStream t.streams id ({ r with window := r.window + n }) } := by
  simp [grantWindow, hl, ha]

theorem init_fail_tclosed (t : Transport) (id : Nat) (sd : Option Nat)
    (htc : t.tclosed = true) : grpc_transport_init_stream t id sd = (t, 1) := by
  simp [grpc_transport_init_stream, htc]

theorem init_fail_used (t : Transport) (id : Nat) (sd : Option Nat)
    (htc : t.tclosed = false) (hu : id ∈ t.used) :
    grpc_transport_init_stream t id sd = (t, 1) := by
  simp [grpc_transport_init_stream, htc, hu]

theorem init_ok_client (t : Transport) (id : Nat)
    (htc : t.tclosed = false) (hu : id ∉ t.used) :
    grpc_transport_init_stream t id none =
      ({ t with streams := (id, freshStream) :: t.streams, used := id :: t.used }, 0) := by
  simp [grpc_transport_init_stream, htc, hu]

theorem init_ok_server (t : Transport) (id d : Nat)
    (htc : t.tclosed = false) (hu : id ∉ t.used) (hd : d ∈ t.tokens) :
    grpc_transport_init_stream t id (some d) =
      ({ t with streams := (id, freshStream) :: t.streams, used := id :: t.used,
                tokens := t.tokens.erase d }, 0) := by
  simp [grpc_transport_init_stream, htc, hu, hd]

theorem init_fail_token (t : Transport) (id d : Nat)
    (htc : t.tclosed = false) (hu : id ∉ t.used) (hd : d ∉ t.tokens) :
    grpc_transport_init_stream t id (some d) = (t, 1) := by
  simp [grpc_transport_init_stream, htc, hu, hd]

theorem destroy_noop_none (t : Transport) (id : Nat)
    (hl : lookupStream t.streams id = none) :
    grpc_transport_destroy_stream t id = t := by
  simp [grpc_transport_destroy_stream, hl]

theorem destroy_noop_open (t : Transport) (id : Nat) (r : StreamRec)
    (hl : lookupStream t.streams id = some r)
    (hcl : r.state ≠ grpc_stream_state.GRPC_STREAM_CLOSED) :
    grpc_transport_destroy_stream t id = t := by
  simp [grpc_transport_destroy_stream, hl, hcl]

theorem destroy_eq (t : Transport) (id : Nat) (r : StreamRec)
    (hl : lookupStream t.streams id = some r)
    (hcl : r.state = grpc_stream_state.GRPC_STREAM_CLOSED) :
    grpc_transport_destroy_stream t id = { t with streams := removeStream t.streams id } := by
  simp [grpc_transport_destroy_stream, hl, hcl]

/-- `deliverPending` preserves the invariant. -/
theorem inv_deliver (t : Transport) (id : Nat) (h : Inv t) : Inv (deliverPending t id) := by
  cases hl : lookupStream t.streams id with
  | none => rw [deliver_noop_none t id hl]; exact h
  | some r =>
    cases hrc : r.recvClosed with
    | true => rw [deliver_noop_recvClosed t id r hl hrc]; exact h
    | false =>
      cases hp : r.pending with
      | nil => rw [deliver_noop_empty t id r hl hp]; exact h
      | cons b rest =>
        rw [deliver_eq t id r b rest hl hrc hp]
        have hbsc : b.is_last = true → r.sendClosed = true := by
          intro hil
          cases hsc : r.sendClosed with
          | true => rfl
          | false =>
            have := h.pendLast id r hl hsc b (by rw [hp]; exact List.mem_cons_self b rest)
            rw [hil] at this
            cases this
        have htc : t.tclosed = false := by
          cases hb : t.tclosed with
          | false => rfl
          | true =>
            have := (h.tclosedAll hb id r hl).2
            rw [hrc] at this
            cases this
        have hnc : hasClosedFor t.log id = false := by
          cases hb : hasClosedFor t.log id with
          | false => rfl
          | true =>
            have := h.closedRecv id r hl hb
            rw [hrc] at this
            cases this
        have hefin : ∀ id', hasClosedFor [⟨id, b.ops, streamStateOf r.sendClosed b.is_last⟩] id'
            = (decide (id = id') && decide (streamStateOf r.sendClosed b.is_last
                = grpc_stream_state.GRPC_STREAM_CLOSED)) := by
          intro id'
          by_cases hc : id = id' ∧ streamStateOf r.sendClosed b.is_last
              = grpc_stream_state.GRPC_STREAM_CLOSED
          · simp [hasClosedFor, hc.1, hc.2]
          · rw [Decidable.not_and_iff_or_not] at hc
            cases hc with
            | inl hc => simp [hasClosedFor, hc]
            | inr hc => simp [hasClosedFor, hc]
        refine ⟨?_, ?_, ?_, ?_, ?_, ?_, ?_, ?_, ?_⟩ <;> dsimp only
        · intro id' r'' hl''
          by_cases hid : id' = id
          · subst hid
            exact h.usedAll id' r hl
          · rw [lookup_update_ne _ _ _ _ hid] at hl''
            exact h.usedAll id' r'' hl''
        · intro id' r'' hl'' hrc''
          by_cases hid : id' = id
          · subst hid
            rw [lookup_update_self, hl, Option.map_some'] at hl''
            cases hl''
            exact hbsc hrc''
          · rw [lookup_update_ne _ _ _ _ hid] at hl''
            exact h.recvSend id' r'' hl'' hrc''
        · intro id' r'' hl'' hsc'' b' hb'
          by_cases hid : id' = id
          · subst hid
            rw [lookup_update_self, hl, Option.map_some'] at hl''
            cases hl''
            exact h.pendLast id' r hl hsc'' b'
              (by rw [hp]; exact List.mem_cons_of_mem b hb')
          · rw [lookup_update_ne _ _ _ _ hid] at hl''
            exact h.pendLast id' r'' hl'' hsc'' b' hb'
        · intro id' r'' hl'' hcl
          rw [hasClosedFor_append, hefin id'] at hcl
          by_cases hid : id' = id
          · subst hid
            rw [lookup_update_self, hl, Option.map_some'] at hl''
            cases hl''
            show b.is_last = true
            cases hil : b.is_last with
            | true => rfl
            | false =>
              rw [hnc] at hcl
              have hsfin : streamStateOf r.sendClosed b.is_last
                  ≠ grpc_stream_state.GRPC_STREAM_CLOSED := by
                rw [hil]
                cases hsc : r.sendClosed <;> simp [streamStateOf]
              simp [hsfin] at hcl
          · rw [lookup_update_ne _ _ _ _ hid] at hl''
            simp [hid, Ne.symm hid] at hcl
            exact h.closedRecv id' r'' hl'' hcl
        · intro id' r'' hl'' hsc'' hrc''
          rw [hasClosedFor_append, hefin id']
          by_cases hid : id' = id
          · subst hid
            rw [lookup_update_self, hl, Option.map_some'] at hl''
            cases hl''
            have hil : b.is_last = true := hrc''
            have hsc3 : r.sendClosed = true := hsc''
            rw [hil, hsc3]
            simp [streamStateOf]
          · rw [lookup_update_ne _ _ _ _ hid] at hl''
            rw [h.stateClosed id' r'' hl'' hsc'' hrc'']
            simp
        · intro d hd
          rw [List.mem_append] at hd
          cases hd with
          | inl hd => exact h.logUsed d hd
          | inr hd =>
            rw [List.mem_singleton] at hd
            subst hd
            exact h.usedAll id r hl
        · exact closedIsLast_append_one t.log _ h.lastClosed hnc
        · intro htc''
          rw [htc] at htc''
          cases htc''
        · exact h.upcalls

/-- `grpc_transport_abort_stream` preserves the invariant. -/
theorem inv_abort (t : Transport) (id st : Nat) (h : Inv t) :
    Inv (grpc_transport_abort_stream t id st) := by
  cases hl : lookupStream t.streams id with
  | none => rw [abort_noop_none t id st hl]; exact h
  | some r =>
    by_cases hcl : r.state = grpc_stream_state.GRPC_STREAM_CLOSED
    · rw [abort_noop_closed t id st r hl hcl]
      exact h
    · rw [abort_eq t id st r hl hcl]
      have hrc : r.recvClosed = false := by
        cases hb : r.recvClosed with
        | false => rfl
        | true => exact absurd ((state_eq_closed_iff r).mpr ⟨h.recvSend id r hl hb, hb⟩) hcl
      have htc : t.tclosed = false := by
        cases hb : t.tclosed with
        | false => rfl
        | true => exact absurd ((state_eq_closed_iff r).mpr (h.tclosedAll hb id r hl)) hcl
      have hnc : hasClosedFor t.log id = false := by
        cases hb : hasClosedFor t.log id with
        | false => rfl
        | true =>
          have := h.closedRecv id r hl hb
          rw [hrc] at this
          cases this
      have hefin : ∀ id', hasClosedFor [⟨id, [], grpc_stream_state.GRPC_STREAM_CLOSED⟩] id'
          = decide (id = id') := by
        intro id'
        by_cases hc : id = id'
        · simp [hasClosedFor, hc]
        · simp [hasClosedFor, hc]
      refine ⟨?_, ?_, ?_, ?_, ?_, ?_, ?_, ?_, ?_⟩ <;> dsimp only
      · intro id' r'' hl''
        by_cases hid : id' = id
        · subst hid
          exact h.usedAll id' r hl
        · rw [lookup_update_ne _ _ _ _ hid] at hl''
          exact h.usedAll id' r'' hl''
      · intro id' r'' hl'' hrc''
        by_cases hid : id' = id
        · subst hid
          rw [lookup_update_self, hl, Option.map_some'] at hl''
          cases hl''
          rfl
        · rw [lookup_update_ne _ _ _ _ hid] at hl''
          exact h.recvSend id' r'' hl'' hrc''
      · intro id' r'' hl'' hsc'' b' hb'
        by_cases hid : id' = id
        · subst hid
          rw [lookup_update_self, hl, Option.map_some'] at hl''
          cases hl''
          cases hsc''
        · rw [lookup_update_ne _ _ _ _ hid] at hl''
          exact h.pendLast id' r'' hl'' hsc'' b' hb'
      · intro id' r'' hl'' hcl'
        by_cases hid : id' = id
        · subst hid
          rw [lookup_update_self, hl, Option.map_some'] at hl''
          cases hl''
          rfl
        · rw [lookup_update_ne _ _ _ _ hid] at hl''
          rw [hasClosedFor_append, hefin id'] at hcl'
          simp [hid, Ne.symm hid] at hcl'
          exact h.closedRecv id' r'' hl'' hcl'
      · intro id' r'' hl'' hsc'' hrc''
        rw [hasClosedFor_append, hefin id']
        by_cases hid : id' = id
        · subst hid
          simp
        · rw [lookup_update_ne _ _ _ _ hid] at hl''
          rw [h.stateClosed id' r'' hl'' hsc'' hrc'']
          simp
      · intro d hd
        rw [List.mem_append] at hd
        cases hd with
        | inl hd => exact h.logUsed d hd
        | inr hd =>
          rw [List.mem_singleton] at hd
          subst hd
          exact h.usedAll id r hl
      · exact closedIsLast_append_one t.log _ h.lastClosed hnc
      · intro htc''
        rw [htc] at htc''
        cases htc''
      · exact h.upcalls

/-! ## Closing a transport: aborting every stream -/

/-- Abort every stream whose identity is listed, in order. -/
def abortAllKeys (keys : List Nat) (t : Transport) : Transport :=
  keys.foldl (fun acc id => grpc_transport_abort_stream acc id 0) t

theorem close_noop (t : Transport) (htc : t.tclosed = true) :
    grpc_transport_close t = t := by
  simp [grpc_transport_close, htc]

theorem close_eq (t : Transport) (htc : t.tclosed = false) :
    grpc_transport_close t =
      { abortAllKeys (t.streams.map Prod.fst) t with
          tclosed := true,
          closedUpcalls := (abortAllKeys (t.streams.map Prod.fst) t).closedUpcalls + 1 } := by
  simp [grpc_transport_close, htc, abortAllKeys]

theorem abort_fields (t : Transport) (id st : Nat) :
    (grpc_transport_abort_stream t id st).used = t.used ∧
    (grpc_transport_abort_stream t id st).tokens = t.tokens ∧
    (grpc_transport_abort_stream t id st).tclosed = t.tclosed ∧
    (grpc_transport_abort_stream t id st).closedUpcalls = t.closedUpcalls := by
  cases hl : lookupStream t.streams id with
  | none => rw [abort_noop_none t id st hl]; exact ⟨rfl, rfl, rfl, rfl⟩
  | some r =>
    by_cases hcl : r.state = grpc_stream_state.GRPC_STREAM_CLOSED
    · rw [abort_noop_closed t id st r hl hcl]; exact ⟨rfl, rfl, rfl, rfl⟩
    · rw [abort_eq t id st r hl hcl]; exact ⟨rfl, rfl, rfl, rfl⟩

theorem abort_keys (t : Transport) (id st : Nat) :
    (grpc_transport_abort_stream t id st).streams.map Prod.fst = t.streams.map Prod.fst := by
  cases hl : lookupStream t.streams id with
  | none => rw [abort_noop_none t id st hl]
  | some r =>
    by_cases hcl : r.state = grpc_stream_state.GRPC_STREAM_CLOSED
    · rw [abort_noop_closed t id st r hl hcl]
    · rw [abort_eq t id st r hl hcl]
      exact update_keys t.streams id (closeRec r)

theorem abort_log_extends (t : Transport) (id st : Nat) :
    ∃ ds, (grpc_transport_abort_stream t id st).log = t.log ++ ds := by
  cases hl : lookupStream t.streams id with
  | none => exact ⟨[], by rw [abort_noop_none t id st hl]; simp⟩
  | some r =>
    by_cases hcl : r.state = grpc_stream_state.GRPC_STREAM_CLOSED
    · exact ⟨[], by rw [abort_noop_closed t id st r hl hcl]; simp⟩
    · exact ⟨_, by rw [abort_eq t id st r hl hcl]⟩

/-- A stream that is already fully closed is untouched by any abort. -/
theorem abort_closed_stays (t : Transport) (id st id' : Nat) (r' : StreamRec)
    (hl' : lookupStream t.streams id' = some r')
    (hsc : r'.sendClosed = true) (hrc : r'.recvClosed = true) :
    lookupStream (grpc_transport_abort_stream t id st).streams id' = some r' := by
  cases hl : lookupStream t.streams id with
  | none => rw [abort_noop_none t id st hl]; exact hl'
  | some r =>
    by_cases hcl : r.state = grpc_stream_state.GRPC_STREAM_CLOSED
    · rw [abort_noop_closed t id st r hl hcl]; exact hl'
    · rw [abort_eq t id st r hl hcl]
      by_cases hid : id' = id
      · subst hid
        rw [hl'] at hl
        cases hl
        exact absurd ((state_eq_closed_iff r').mpr ⟨hsc, hrc⟩) hcl
      · show lookupStream (updateStream t.streams id (closeRec r)) id' = some r'
        rw [lookup_update_ne _ _ _ _ hid]
        exact hl'

theorem abort_lookup_none (t : Transport) (id st id' : Nat)
    (hl' : lookupStream t.streams id' = none) :
    lookupStream (grpc_transport_abort_stream t id st).streams id' = none := by
  cases hl : lookupStream t.streams id with
  | none => rw [abort_noop_none t id st hl]; exact hl'
  | some r =>
    by_cases hcl : r.state = grpc_stream_state.GRPC_STREAM_CLOSED
    · rw [abort_noop_closed t id st r hl hcl]; exact hl'
    · rw [abort_eq t id st r hl hcl]
      by_cases hid : id' = id
      · subst hid
        rw [hl'] at hl
        cases hl
      · show lookupStream (updateStream t.streams id (closeRec r)) id' = none
        rw [lookup_update_ne _ _ _ _ hid]
        exact hl'

/-- After aborting stream `id`, its record (if live) is fully closed. -/
theorem abort_target_closed (t : Transport) (id st : Nat) (r' : StreamRec)
    (hl' : lookupStream (grpc_transport_abort_stream t id st).streams id = some r') :
    r'.sendClosed = true ∧ r'.recvClosed = true := by
  cases hl : lookupStream t.streams id with
  | none =>
    rw [abort_noop_none t id st hl, hl] at hl'
    cases hl'
  | some r =>
    by_cases hcl : r.state = grpc_stream_state.GRPC_STREAM_CLOSED
    · rw [abort_noop_closed t id st r hl hcl, hl] at hl'
      cases hl'
      exact (state_eq_closed_iff r').mp hcl
    · rw [abort_eq t id st r hl hcl] at hl'
      have hl'' : lookupStream (updateStream t.streams id (closeRec r)) id = some r' := hl'
      rw [lookup_update_self, hl, Option.map_some'] at hl''
      cases hl''
      exact ⟨rfl, rfl⟩

theorem abortAll_cons (k : Nat) (rest : List Nat) (t : Transport) :
    abortAllKeys (k :: rest) t = abortAllKeys rest (grpc_transport_abort_stream t k 0) := rfl

theorem inv_abortAll (keys : List Nat) (t : Transport) (h : Inv t) :
    Inv (abortAllKeys keys t) := by
  induction keys generalizing t with
  | nil => exact h
  | cons k rest ih => exact ih _ (inv_abort t k 0 h)

theorem abortAll_fields (keys : List Nat) (t : Transport) :
    (abortAllKeys keys t).used = t.used ∧
    (abortAllKeys keys t).tokens = t.tokens ∧
    (abortAllKeys keys t).tclosed = t.tclosed ∧
    (abortAllKeys keys t).closedUpcalls = t.closedUpcalls := by
  induction keys generalizing t with
  | nil => exact ⟨rfl, rfl, rfl, rfl⟩
  | cons k rest ih =>
    obtain ⟨h1, h2, h3, h4⟩ := ih (grpc_transport_abort_stream t k 0)
    obtain ⟨g1, g2, g3, g4⟩ := abort_fields t k 0
    exact ⟨h1.trans g1, h2.trans g2, h3.trans g3, h4.trans g4⟩

theorem abortAll_keys_eq (keys : List Nat) (t : Transport) :
    (abortAllKeys keys t).streams.map Prod.fst = t.streams.map Prod.fst := by
  induction keys generalizing t with
  | nil => rfl
  | cons k rest ih =>
    exact (ih (grpc_transport_abort_stream t k 0)).trans (abort_keys t k 0)

theorem abortAll_log_extends (keys : List Nat) (t : Transport) :
    ∃ ds, (abortAllKeys keys t).log = t.log ++ ds := by
  induction keys generalizing t with
  | nil => exact ⟨[], by simp [abortAllKeys]⟩
  | cons k rest ih =>
    obtain ⟨ds1, hds1⟩ := abort_log_extends t k 0
    obtain ⟨ds2, hds2⟩ := ih (grpc_transport_abort_stream t k 0)
    exact ⟨ds1 ++ ds2, by rw [abortAll_cons, hds2, hds1, List.append_assoc]⟩

theorem abortAll_closed_stays (keys : List Nat) (t : Transport) (id' : Nat) (r' : StreamRec)
    (hl' : lookupStream t.streams id' = some r')
    (hsc : r'.sendClosed = true) (hrc : r'.recvClosed = true) :
    lookupStream (abortAllKeys keys t).streams id' = some r' := by
  induction keys generalizing t with
  | nil => exact hl'
  | cons k rest ih =>
    exact ih (grpc_transport_abort_stream t k 0) (abort_closed_stays t k 0 id' r' hl' hsc hrc)

theorem abortAll_lookup_none (keys : List Nat) (t : Transport) (id' : Nat)
    (hl' : lookupStream t.streams id' = none) :
    lookupStream (abortAllKeys keys t).streams id' = none := by
  induction keys generalizing t with
  | nil => exact hl'
  | cons k rest ih =>
    exact ih (grpc_transport_abort_stream t k 0) (abort_lookup_none t k 0 id' hl')

/-- Every stream whose identity is in the aborted list is fully closed
after the fold (when still live). -/
theorem abortAll_mem_closed (keys : List Nat) (t : Transport) (id : Nat)
    (hmem : id ∈ keys) (r' : StreamRec)
    (hl' : lookupStream (abortAllKeys keys t).streams id = some r') :
    r'.sendClosed = true ∧ r'.recvClosed = true := by
  induction keys generalizing t with
  | nil => cases hmem
  | cons k rest ih =>
    rw [abortAll_cons] at hl'
    rcases List.mem_cons.mp hmem with heq | hmem'
    · subst heq
      cases hpost : lookupStream (grpc_transport_abort_stream t id 0).streams id with
      | none =>
        rw [abortAll_lookup_none rest _ id hpost] at hl'
        cases hl'
      | some r1 =>
        obtain ⟨hsc1, hrc1⟩ := abort_target_closed t id 0 r1 hpost
        rw [abortAll_closed_stays rest _ id r1 hpost hsc1 hrc1] at hl'
        cases hl'
        exact ⟨hsc1, hrc1⟩
    · exact ih (grpc_transport_abort_stream t k 0) hmem' hl'

/-- `grpc_transport_close` preserves the invariant. -/
theorem inv_close (t : Transport) (h : Inv t) : Inv (grpc_transport_close t) := by
  by_cases htc : t.tclosed
  · rw [close_noop t htc]
    exact h
  · have htc' : t.tclosed = false := by simpa using htc
    rw [close_eq t htc']
    have h' : Inv (abortAllKeys (t.streams.map Prod.fst) t) :=
      inv_abortAll (t.streams.map Prod.fst) t h
    refine ⟨?_, ?_, ?_, ?_, ?_, ?_, ?_, ?_, ?_⟩ <;> dsimp only
    · exact h'.usedAll
    · exact h'.recvSend
    · exact h'.pendLast
    · exact h'.closedRecv
    · exact h'.stateClosed
    · exact h'.logUsed
    · exact h'.lastClosed
    · intro _ id r' hl'
      have hk := lookup_mem_keys _ _ _ hl'
      rw [abortAll_keys_eq] at hk
      exact abortAll_mem_closed (t.streams.map Prod.fst) t id hk r' hl'
    · rw [(abortAll_fields (t.streams.map Prod.fst) t).2.2.2, h.upcalls, htc']
      simp

/-- Every command of the model preserves the invariant. -/
theorem inv_step (t : Transport) (c : Cmd) (h : Inv t) : Inv (step t c) := by
  cases c with
  | initStream id sd => exact inv_initStream t id sd h
  | sendBatch id ops il => exact inv_send t id ops il h
  | deliver id => exact inv_deliver t id h
  | abortStream id st => exact inv_abort t id st h
  | setAllowWindowUpdates id a => exact inv_setAllow t id a h
  | grantWindow id n => exact inv_grant t id n h
  | acceptStream d => exact inv_accept t d h
  | closeTransport => exact inv_close t h
  | destroyStream id => exact inv_destroy t id h

/-- Runs from an invariant state stay in invariant states. -/
theorem inv_runFrom (t : Transport) (cs : List Cmd) (h : Inv t) : Inv (runFrom t cs) := by
  induction cs generalizing t with
  | nil => exact h
  | cons c rest ih => exact ih (step t c) (inv_step t c h)

/-- Every reachable transport state satisfies the invariant. -/
theorem inv_run (cs : List Cmd) : Inv (run cs) := inv_runFrom init0 cs inv_init0

/-! ## The delivery log is append-only, and frozen after a terminal delivery -/

theorem runFrom_cons (t : Transport) (c : Cmd) (cs : List Cmd) :
    runFrom t (c :: cs) = runFrom (step t c) cs := rfl

theorem init_log (t : Transport) (id : Nat) (sd : Option Nat) :
    (grpc_transport_init_stream t id sd).1.log = t.log := by
  by_cases htc : t.tclosed
  · rw [init_fail_tclosed t id sd htc]
  · have htc' : t.tclosed = false := by simpa using htc
    by_cases hu : id ∈ t.used
    · rw [init_fail_used t id sd htc' hu]
    · cases sd with
      | none => rw [init_ok_client t id htc' hu]
      | some d =>
        by_cases hd : d ∈ t.tokens
        · rw [init_ok_server t id d htc' hu hd]
        · rw [init_fail_token t id d htc' hu hd]

theorem send_log (t : Transport) (id : Nat) (ops : List StreamOp) (il : Bool) :
    (grpc_transport_send_batch t id ops il).log = t.log := by
  cases hl : lookupStream t.streams id with
  | none => rw [send_noop_none t id ops il hl]
  | some r =>
    cases hsc : r.sendClosed with
    | true => rw [send_noop_closed t id ops il r hl hsc]
    | false => rw [send_eq t id ops il r hl hsc]

theorem setAllow_log (t : Transport) (id : Nat) (a : Bool) :
    (grpc_transport_set_allow_window_updates t id a).log = t.log := by
  cases hl : lookupStream t.streams id with
  | none => rw [setAllow_noop_none t id a hl]
  | some r => rw [setAllow_eq t id a r hl]

theorem grant_log (t : Transport) (id n : Nat) : (grantWindow t id n).log = t.log := by
  cases hl : lookupStream t.streams id with
  | none => simp [grantWindow, hl]
  | some r =>
    cases ha : r.allow with
    | true => rw [grant_eq t id n r hl ha]
    | false => rw [grant_noop_disallowed t id n r hl ha]

theorem destroy_log (t : Transport) (id : Nat) :
    (grpc_transport_destroy_stream t id).log = t.log := by
  cases hl : lookupStream t.streams id with
  | none => rw [destroy_noop_none t id hl]
  | some r =>
    by_cases hcl : r.state = grpc_stream_state.GRPC_STREAM_CLOSED
    · rw [destroy_eq t id r hl hcl]
    · rw [destroy_noop_open t id r hl hcl]

/-- Every step only appends to the delivery log: deliveries are observed
in the order the transport produces them, and history is never rewritten. -/
theorem step_log_extends (t : Transport) (c : Cmd) :
    ∃ ds, (step t c).log = t.log ++ ds := by
  cases c with
  | initStream id sd => exact ⟨[], by rw [step, init_log]; simp⟩
  | sendBatch id ops il => exact ⟨[], by rw [step, send_log]; simp⟩
  | deliver id =>
    cases hl : lookupStream t.streams id with
    | none => exact ⟨[], by rw [step, deliver_noop_none t id hl]; simp⟩
    | some r =>
      cases hrc : r.recvClosed with
      | true => exact ⟨[], by rw [step, deliver_noop_recvClosed t id r hl hrc]; simp⟩
      | false =>
        cases hp : r.pending with
        | nil => exact ⟨[], by rw [step, deliver_noop_empty t id r hl hp]; simp⟩
        | cons b rest =>
          exact ⟨_, by rw [step, deliver_eq t id r b rest hl hrc hp]⟩
  | abortStream id st => exact abort_log_extends t id st
  | setAllowWindowUpdates id a => exact ⟨[], by rw [step, setAllow_log]; simp⟩
  | grantWindow id n => exact ⟨[], by rw [step, grant_log]; simp⟩
  | acceptStream d => exact ⟨[], by simp [step, acceptStream]⟩
  | closeTransport =>
    by_cases htc : t.tclosed
    · exact ⟨[], by rw [step, close_noop t htc]; simp⟩
    · have htc' : t.tclosed = false := by simpa using htc
      obtain ⟨ds, hds⟩ := abortAll_log_extends (t.streams.map Prod.fst) t
      exact ⟨ds, by rw [step, close_eq t htc']; exact hds⟩
  | destroyStream id => exact ⟨[], by rw [step, destroy_log]; simp⟩

theorem hasClosed_step (t : Transport) (c : Cmd) (id : Nat)
    (hc : hasClosedFor t.log id = true) :
    hasClosedFor (step t c).log id = true := by
  obtain ⟨ds, hds⟩ := step_log_extends t c
  rw [hds, hasClosedFor_append, hc]
  rfl

theorem hasClosed_runFrom (t : Transport) (cs : List Cmd) (id : Nat)
    (hc : hasClosedFor t.log id = true) :
    hasClosedFor (runFrom t cs).log id = true := by
  induction cs generalizing t with
  | nil => exact hc
  | cons c rest ih => exact ih (step t c) (hasClosed_step t c id hc)

/-- After a terminal delivery for a stream, aborting any stream adds no
delivery for it. -/
theorem frozen_abort (t : Transport) (id' st id : Nat) (h : Inv t)
    (hc : hasClosedFor t.log id = true) :
    deliveriesFor (grpc_transport_abort_stream t id' st).log id = deliveriesFor t.log id := by
  cases hl : lookupStream t.streams id' with
  | none => rw [abort_noop_none t id' st hl]
  | some r =>
    by_cases hcl : r.state = grpc_stream_state.GRPC_STREAM_CLOSED
    · rw [abort_noop_closed t id' st r hl hcl]
    · rw [abort_eq t id' st r hl hcl]
      by_cases hid : id' = id
      · subst hid
        have hrc := h.closedRecv id' r hl hc
        have hsc := h.recvSend id' r hl hrc
        exact absurd ((state_eq_closed_iff r).mpr ⟨hsc, hrc⟩) hcl
      · have hgoal : deliveriesFor
            (t.log ++ [(⟨id', [], .GRPC_STREAM_CLOSED⟩ : Delivery)]) id
            = deliveriesFor t.log id := by
          rw [deliveriesFor_append]
          simp [deliveriesFor, hid]
        exact hgoal

theorem frozen_abortAll (keys : List Nat) (t : Transport) (id : Nat) (h : Inv t)
    (hc : hasClosedFor t.log id = true) :
    deliveriesFor (abortAllKeys keys t).log id = deliveriesFor t.log id := by
  induction keys generalizing t with
  | nil => rfl
  | cons k rest ih =>
    rw [abortAll_cons]
    exact (ih (grpc_transport_abort_stream t k 0) (inv_abort t k 0 h)
      (by obtain ⟨ds, hds⟩ := abort_log_extends t k 0
          rw [hds, hasClosedFor_append, hc]
          rfl)).trans (frozen_abort t k 0 id h hc)

/-- After a terminal delivery for a stream, no step adds a delivery for it. -/
theorem frozen_step (t : Transport) (c : Cmd) (id : Nat) (h : Inv t)
    (hc : hasClosedFor t.log id = true) :
    deliveriesFor (step t c).log id = deliveriesFor t.log id := by
  cases c with
  | initStream id' sd => rw [step, init_log]
  | sendBatch id' ops il => rw [step, send_log]
  | deliver id' =>
    rw [step]
    cases hl : lookupStream t.streams id' with
    | none => rw [deliver_noop_none t id' hl]
    | some r =>
      cases hrc : r.recvClosed with
      | true => rw [deliver_noop_recvClosed t id' r hl hrc]
      | false =>
        cases hp : r.pending with
        | nil => rw [deliver_noop_empty t id' r hl hp]
        | cons b rest =>
          by_cases hid : id' = id
          · subst hid
            have := h.closedRecv id' r hl hc
            rw [hrc] at this
            cases this
          · rw [deliver_eq t id' r b rest hl hrc hp]
            have hgoal : deliveriesFor
                (t.log ++ [(⟨id', b.ops, streamStateOf r.sendClosed b.is_last⟩ : Delivery)]) id
                = deliveriesFor t.log id := by
              rw [deliveriesFor_append]
              simp [deliveriesFor, hid]
            exact hgoal
  | abortStream id' st => exact frozen_abort t id' st id h hc
  | setAllowWindowUpdates id' a => rw [step, setAllow_log]
  | grantWindow id' n => rw [step, grant_log]
  | acceptStream d => rfl
  | closeTransport =>
    rw [step]
    by_cases htc : t.tclosed
    · rw [close_noop t htc]
    · have htc' : t.tclosed = false := by simpa using htc
      rw [close_eq t htc']
      exact frozen_abortAll (t.streams.map Prod.fst) t id h hc
  | destroyStream id' => rw [step, destroy_log]

/-- After a terminal delivery for a stream, no continuation of the run
delivers anything more for it. -/
theorem frozen_runFrom (t : Transport) (cs : List Cmd) (id : Nat) (h : Inv t)
    (hc : hasClosedFor t.log id = true) :
    deliveriesFor (runFrom t cs).log id = deliveriesFor t.log id := by
  induction cs generalizing t with
  | nil => rfl
  | cons c rest ih =>
    rw [runFrom_cons]
    exact (ih (step t c) (inv_step t c h) (hasClosed_step t c id hc)).trans
      (frozen_step t c id h hc)

/-! ## Per-step validity of stream state transitions -/

theorem canStep_to_closed (s : grpc_stream_state) :
    s = .GRPC_STREAM_CLOSED ∨ canStep s .GRPC_STREAM_CLOSED = true := by
  cases s <;> simp [canStep, streamStep]

theorem canStep_from_closed (s' : grpc_stream_state) :
    canStep .GRPC_STREAM_CLOSED s' = false := by
  cases s' <;> simp [canStep, streamStep]

/-- Initializing some stream never changes the record of a live stream. -/
theorem init_lookup_live (t : Transport) (id' : Nat) (sd : Option Nat) (id : Nat)
    (h : Inv t) (r : StreamRec) (hl : lookupStream t.streams id = some r) :
    lookupStream (grpc_transport_init_stream t id' sd).1.streams id = some r := by
  by_cases htc : t.tclosed
  · rw [init_fail_tclosed t id' sd htc]
    exact hl
  · have htc' : t.tclosed = false := by simpa using htc
    by_cases hu : id' ∈ t.used
    · rw [init_fail_used t id' sd htc' hu]
      exact hl
    · have hne : id' ≠ id := fun he => hu (he ▸ h.usedAll id r hl)
      cases sd with
      | none =>
        rw [init_ok_client t id' htc' hu]
        show lookupStream ((id', freshStream) :: t.streams) id = some r
        rw [lookupStream, if_neg hne]
        exact hl
      | some d =>
        by_cases hd : d ∈ t.tokens
        · rw [init_ok_server t id' d htc' hu hd]
          show lookupStream ((id', freshStream) :: t.streams) id = some r
          rw [lookupStream, if_neg hne]
          exact hl
        · rw [init_fail_token t id' d htc' hu hd]
          exact hl

/-- Aborting another stream never changes this stream's record. -/
theorem abort_lookup_other (t : Transport) (k st id : Nat) (hne : id ≠ k) :
    lookupStream (grpc_transport_abort_stream t k st).streams id
      = lookupStream t.streams id := by
  cases hl : lookupStream t.streams k with
  | none => rw [abort_noop_none t k st hl]
  | some r =>
    by_cases hcl : r.state = grpc_stream_state.GRPC_STREAM_CLOSED
    · rw [abort_noop_closed t k st r hl hcl]
    · rw [abort_eq t k st r hl hcl]
      exact lookup_update_ne _ _ _ _ hne

/-- A send on another stream never changes this stream's record. -/
theorem send_lookup_other (t : Transport) (k : Nat) (ops : List StreamOp) (il : Bool)
    (id : Nat) (hne : k ≠ id) :
    lookupStream (grpc_transport_send_batch t k ops il).streams id
      = lookupStream t.streams id := by
  cases hl : lookupStream t.streams k with
  | none => rw [send_noop_none t k ops il hl]
  | some r =>
    cases hsc : r.sendClosed with
    | true => rw [send_noop_closed t k ops il r hl hsc]
    | false =>
      rw [send_eq t k ops il r hl hsc]
      exact lookup_update_ne _ _ _ _ (Ne.symm hne)

/-- A transmission on another stream never changes this stream's record. -/
theorem deliver_lookup_other (t : Transport) (k id : Nat) (hne : k ≠ id) :
    lookupStream (deliverPending t k).streams id = lookupStream t.streams id := by
  cases hl : lookupStream t.streams k with
  | none => rw [deliver_noop_none t k hl]
  | some r =>
    cases hrc : r.recvClosed with
    | true => rw [deliver_noop_recvClosed t k r hl hrc]
    | false =>
      cases hp : r.pending with
      | nil => rw [deliver_noop_empty t k r hl hp]
      | cons b rest =>
        rw [deliver_eq t k r b rest hl hrc hp]
        exact lookup_update_ne _ _ _ _ (Ne.symm hne)

/-- Toggling another stream's gate never changes this stream's record. -/
theorem setAllow_lookup_other (t : Transport) (k : Nat) (a : Bool) (id : Nat)
    (hne : k ≠ id) :
    lookupStream (grpc_transport_set_allow_window_updates t k a).streams id
      = lookupStream t.streams id := by
  cases hl : lookupStream t.streams k with
  | none => rw [setAllow_noop_none t k a hl]
  | some r =>
    rw [setAllow_eq t k a r hl]
    exact lookup_update_ne _ _ _ _ (Ne.symm hne)

/-- Granting window on another stream never changes this stream's record. -/
theorem grant_lookup_other (t : Transport) (k n id : Nat) (hne : k ≠ id) :
    lookupStream (grantWindow t k n).streams id = lookupStream t.streams id := by
  cases hl : lookupStream t.streams k with
  | none => simp [grantWindow, hl]
  | some r =>
    cases ha : r.allow with
    | false => rw [grant_noop_disallowed t k n r hl ha]
    | true =>
      rw [grant_eq t k n r hl ha]
      exact lookup_update_ne _ _ _ _ (Ne.symm hne)

/-- Destroying another stream never changes this stream's record. -/
theorem destroy_lookup_other (t : Transport) (k id : Nat) (hne : k ≠ id) :
    lookupStream (grpc_transport_destroy_stream t k).streams id
      = lookupStream t.streams id := by
  cases hl : lookupStream t.streams k with
  | none => rw [destroy_noop_none t k hl]
  | some r =>
    by_cases hcl : r.state = grpc_stream_state.GRPC_STREAM_CLOSED
    · rw [destroy_eq t k r hl hcl]
      exact lookup_remove_ne _ _ _ (Ne.symm hne)
    · rw [destroy_noop_open t k r hl hcl]

/-- An abort leaves a stream's record unchanged or fully closes it. -/
theorem abort_lookup_cases (t : Transport) (k st id : Nat) (r : StreamRec)
    (hl : lookupStream t.streams id = some r) :
    lookupStream (grpc_transport_abort_stream t k st).streams id = some r ∨
    lookupStream (grpc_transport_abort_stream t k st).streams id = some (closeRec r) := by
  by_cases hne : id = k
  · subst hne
    by_cases hcl : r.state = grpc_stream_state.GRPC_STREAM_CLOSED
    · rw [abort_noop_closed t id st r hl hcl, hl]
      exact Or.inl rfl
    · rw [abort_eq t id st r hl hcl]
      right
      have hg : lookupStream (updateStream t.streams id (closeRec r)) id
          = some (closeRec r) := by
        rw [lookup_update_self, hl, Option.map_some']
      exact hg
  · rw [abort_lookup_other t k st id hne, hl]
    exact Or.inl rfl

theorem closeRec_idem (r : StreamRec) : closeRec (closeRec r) = closeRec r := rfl

/-- A fold of aborts leaves a stream's record unchanged or fully closes it. -/
theorem abortAll_lookup_cases (keys : List Nat) (t : Transport) (id : Nat) (r : StreamRec)
    (hl : lookupStream t.streams id = some r) :
    lookupStream (abortAllKeys keys t).streams id = some r ∨
    lookupStream (abortAllKeys keys t).streams id = some (closeRec r) := by
  induction keys generalizing t r with
  | nil => exact Or.inl hl
  | cons k rest ih =>
    rw [abortAll_cons]
    cases abort_lookup_cases t k 0 id r hl with
    | inl h1 => exact ih (grpc_transport_abort_stream t k 0) r h1
    | inr h1 =>
      cases ih (grpc_transport_abort_stream t k 0) (closeRec r) h1 with
      | inl h2 => exact Or.inr h2
      | inr h2 =>
        rw [closeRec_idem] at h2
        exact Or.inr h2

theorem closeRec_state (r : StreamRec) :
    (closeRec r).state = grpc_stream_state.GRPC_STREAM_CLOSED := rfl

/-- Each step moves every live stream along the section 4.1 state machine
(or leaves it in place). -/
theorem step_state_valid (t : Transport) (c : Cmd) (id : Nat) (h : Inv t)
    (s s' : grpc_stream_state) (hs : stateOf t id = some s)
    (hs' : stateOf (step t c) id = some s') :
    s = s' ∨ canStep s s' = true := by
  unfold stateOf at hs
  cases hl : lookupStream t.streams id with
  | none => rw [hl] at hs; cases hs
  | some r =>
    rw [hl, Option.map_some'] at hs
    cases hs
    cases c with
    | initStream id' sd =>
      rw [step] at hs'
      unfold stateOf at hs'
      rw [init_lookup_live t id' sd id h r hl, Option.map_some'] at hs'
      cases hs'
      exact Or.inl rfl
    | sendBatch id' ops il =>
      rw [step] at hs'
      unfold stateOf at hs'
      by_cases hid : id' = id
      · subst hid
        cases hsc : r.sendClosed with
        | true =>
          rw [send_noop_closed t id' ops il r hl hsc, hl, Option.map_some'] at hs'
          cases hs'
          exact Or.inl rfl
        | false =>
          have hrc : r.recvClosed = false := by
            cases hb : r.recvClosed with
            | false => rfl
            | true =>
              have := h.recvSend id' r hl hb
              rw [hsc] at this
              cases this
          rw [send_eq t id' ops il r hl hsc] at hs'
          have hlu : lookupStream
              (updateStream t.streams id'
                ({ r with sendClosed := il, pending := r.pending ++ [⟨ops, il⟩] })) id'
              = some ({ r with sendClosed := il, pending := r.pending ++ [⟨ops, il⟩] }) := by
            rw [lookup_update_self, hl, Option.map_some']
          rw [hlu, Option.map_some'] at hs'
          cases hs'
          show r.state = StreamRec.state _ ∨ canStep r.state (StreamRec.state _) = true
          cases il with
          | false =>
            left
            simp [StreamRec.state, hsc]
          | true =>
            right
            simp [StreamRec.state, streamStateOf, hsc, hrc, canStep, streamStep]
      · rw [send_lookup_other t id' ops il id hid, hl, Option.map_some'] at hs'
        cases hs'
        exact Or.inl rfl
    | deliver id' =>
      rw [step] at hs'
      unfold stateOf at hs'
      by_cases hid : id' = id
      · subst hid
        cases hrc : r.recvClosed with
        | true =>
          rw [deliver_noop_recvClosed t id' r hl hrc, hl, Option.map_some'] at hs'
          cases hs'
          exact Or.inl rfl
        | false =>
          cases hp : r.pending with
          | nil =>
            rw [deliver_noop_empty t id' r hl hp, hl, Option.map_some'] at hs'
            cases hs'
            exact Or.inl rfl
          | cons b rest =>
            rw [deliver_eq t id' r b rest hl hrc hp] at hs'
            have hlu : lookupStream
                (updateStream t.streams id'
                  ({ r with pending := rest, recvClosed := b.is_last })) id'
                = some ({ r with pending := rest, recvClosed := b.is_last }) := by
              rw [lookup_update_self, hl, Option.map_some']
            rw [hlu, Option.map_some'] at hs'
            cases hs'
            cases hil : b.is_last with
            | false =>
              left
              simp [StreamRec.state, hil, hrc]
            | true =>
              right
              have hsc : r.sendClosed = true := by
                cases hb : r.sendClosed with
                | true => rfl
                | false =>
                  have := h.pendLast id' r hl hb b (by rw [hp]; exact List.mem_cons_self b rest)
                  rw [hil] at this
                  cases this
              simp [StreamRec.state, streamStateOf, hil, hrc, hsc, canStep, streamStep]
      · rw [deliver_lookup_other t id' id hid, hl, Option.map_some'] at hs'
        cases hs'
        exact Or.inl rfl
    | abortStream id' st =>
      rw [step] at hs'
      unfold stateOf at hs'
      cases abort_lookup_cases t id' st id r hl with
      | inl h1 =>
        rw [h1, Option.map_some'] at hs'
        cases hs'
        exact Or.inl rfl
      | inr h1 =>
        rw [h1, Option.map_some'] at hs'
        cases hs'
        rw [closeRec_state]
        exact canStep_to_closed r.state
    | setAllowWindowUpdates id' a =>
      rw [step] at hs'
      unfold stateOf at hs'
      by_cases hid : id' = id
      · subst hid
        rw [setAllow_eq t id' a r hl] at hs'
        have hlu : lookupStream (updateStream t.streams id' ({ r with allow := a })) id'
            = some ({ r with allow := a }) := by
          rw [lookup_update_self, hl, Option.map_some']
        rw [hlu, Option.map_some'] at hs'
        cases hs'
        exact Or.inl rfl
      · rw [setAllow_lookup_other t id' a id hid, hl, Option.map_some'] at hs'
        cases hs'
        exact Or.inl rfl
    | grantWindow id' n =>
      rw [step] at hs'
      unfold stateOf at hs'
      by_cases hid : id' = id
      · subst hid
        cases ha : r.allow with
        | false =>
          rw [grant_noop_disallowed t id' n r hl ha, hl, Option.map_some'] at hs'
          cases hs'
          exact Or.inl rfl
        | true =>
          rw [grant_eq t id' n r hl ha] at hs'
          have hlu : lookupStream
              (updateStream t.streams id' ({ r with window := r.window + n })) id'
              = some ({ r with window := r.window + n }) := by
            rw [lookup_update_self, hl, Option.map_some']
          rw [hlu, Option.map_some'] at hs'
          cases hs'
          exact Or.inl rfl
      · rw [grant_lookup_other t id' n id hid, hl, Option.map_some'] at hs'
        cases hs'
        exact Or.inl rfl
    | acceptStream d =>
      rw [step] at hs'
      unfold stateOf at hs'
      have hs'' : Option.map StreamRec.state (lookupStream t.streams id) = some s' := hs'
      rw [hl, Option.map_some'] at hs''
      cases hs''
      exact Or.inl rfl
    | closeTransport =>
      rw [step] at hs'
      unfold stateOf at hs'
      by_cases htc : t.tclosed
      · rw [close_noop t htc, hl, Option.map_some'] at hs'
        cases hs'
        exact Or.inl rfl
      · have htc' : t.tclosed = false := by simpa using htc
        rw [close_eq t htc'] at hs'
        cases abortAll_lookup_cases (t.streams.map Prod.fst) t id r hl with
        | inl h1 =>
          have hlu : lookupStream ({ abortAllKeys (t.streams.map Prod.fst) t with
              tclosed := true,
              closedUpcalls :=
                (abortAllKeys (t.streams.map Prod.fst) t).closedUpcalls + 1 }).streams id
              = some r := h1
          rw [hlu, Option.map_some'] at hs'
          cases hs'
          exact Or.inl rfl
        | inr h1 =>
          have hlu : lookupStream ({ abortAllKeys (t.streams.map Prod.fst) t with
              tclosed := true,
              closedUpcalls :=
                (abortAllKeys (t.streams.map Prod.fst) t).closedUpcalls + 1 }).streams id
              = some (closeRec r) := h1
          rw [hlu, Option.map_some'] at hs'
          cases hs'
          rw [closeRec_state]
          exact canStep_to_closed r.state
    | destroyStream id' =>
      rw [step] at hs'
      unfold stateOf at hs'
      by_cases hid : id' = id
      · subst hid
        by_cases hcl : r.state = grpc_stream_state.GRPC_STREAM_CLOSED
        · rw [destroy_eq t id' r hl hcl, lookup_remove_self] at hs'
          cases hs'
        · rw [destroy_noop_open t id' r hl hcl, hl, Option.map_some'] at hs'
          cases hs'
          exact Or.inl rfl
      · rw [destroy_lookup_other t id' id hid, hl, Option.map_some'] at hs'
        cases hs'
        exact Or.inl rfl

/-! ## Claim C1 -/

/-- C1: for every stream, the sequence of states it passes through is a
valid path of the state machine: from OPEN it may move to SEND_CLOSED or
RECV_CLOSED independently, only the combination of send-closed and
recv-closed (in either order) yields CLOSED, and CLOSED is terminal — any
step leaves a CLOSED stream CLOSED (until destroyed) and no non-destroy
operation delivers anything further on it. -/
theorem C1_stream_state_machine (t : Transport) (c : Cmd) (id : Nat) (hInv : Inv t) :
    (∀ sc rc, streamStateOf sc rc = .GRPC_STREAM_CLOSED ↔ (sc = true ∧ rc = true)) ∧
    streamStep .GRPC_STREAM_OPEN .closeSend = some .GRPC_STREAM_SEND_CLOSED ∧
    streamStep .GRPC_STREAM_OPEN .closeRecv = some .GRPC_STREAM_RECV_CLOSED ∧
    (∀ e, streamStep .GRPC_STREAM_CLOSED e = none) ∧
    (∀ s s', stateOf t id = some s → stateOf (step t c) id = some s' →
      s = s' ∨ canStep s s' = true) ∧
    (stateOf t id = some .GRPC_STREAM_CLOSED →
      (stateOf (step t c) id = some .GRPC_STREAM_CLOSED ∨ stateOf (step t c) id = none) ∧
      deliveriesFor (step t c).log id = deliveriesFor t.log id) := by
  refine ⟨?_, rfl, rfl, ?_, ?_, ?_⟩
  · intro sc rc
    cases sc <;> cases rc <;> simp [streamStateOf]
  · intro e
    cases e <;> rfl
  · exact fun s s' hs hs' => step_state_valid t c id hInv s s' hs hs'
  · intro hcl
    have hr : ∃ r, lookupStream t.streams id = some r ∧
        r.state = grpc_stream_state.GRPC_STREAM_CLOSED := by
      unfold stateOf at hcl
      cases hl : lookupStream t.streams id with
      | none => rw [hl] at hcl; cases hcl
      | some r =>
        rw [hl, Option.map_some'] at hcl
        exact ⟨r, rfl, by injection hcl⟩
    obtain ⟨r, hl, hrcl⟩ := hr
    obtain ⟨hsc, hrc⟩ := (state_eq_closed_iff r).mp hrcl
    have hhc : hasClosedFor t.log id = true := hInv.stateClosed id r hl hsc hrc
    constructor
    · cases hpost : stateOf (step t c) id with
      | none => exact Or.inr rfl
      | some s' =>
        left
        cases step_state_valid t c id hInv _ s'
          (by rw [stateOf, hl, Option.map_some', hrcl]) hpost with
        | inl he => rw [← he]
        | inr he =>
          rw [canStep_from_closed s'] at he
          cases he
    · exact frozen_step t c id hInv hhc

/-- Witness for C1 at a concrete run: stream 1 of a fresh transport is
OPEN, and aborting it is a valid edge of the state machine. -/
theorem C1_witness :
    grpc_stream_state.GRPC_STREAM_OPEN = grpc_stream_state.GRPC_STREAM_CLOSED ∨
    canStep .GRPC_STREAM_OPEN .GRPC_STREAM_CLOSED = true :=
  (C1_stream_state_machine (run [Cmd.initStream 1 none]) (Cmd.abortStream 1 5) 1
      (inv_run [Cmd.initStream 1 none])).2.2.2.2.1
    .GRPC_STREAM_OPEN .GRPC_STREAM_CLOSED (by decide) (by decide)

/-! ## Claim C2 -/

theorem deliveriesFor_single_self (d : Delivery) (id : Nat) (h : d.stream = id) :
    deliveriesFor [d] id = [d] := by
  simp [deliveriesFor, h]

/-- C2: aborting a live, not-yet-CLOSED stream causes exactly one
subsequent local delivery — an empty batch with
`final_state = GRPC_STREAM_CLOSED` — and no delivery for that stream ever
occurs after it, whatever the transport does next. -/
theorem C2_abort_terminal_delivery (t : Transport) (id status : Nat) (cs : List Cmd)
    (h : Inv t) (r : StreamRec) (hl : lookupStream t.streams id = some r)
    (hopen : r.state ≠ grpc_stream_state.GRPC_STREAM_CLOSED) :
    deliveriesFor (grpc_transport_abort_stream t id status).log id
      = deliveriesFor t.log id ++ [⟨id, [], .GRPC_STREAM_CLOSED⟩] ∧
    closedCount (grpc_transport_abort_stream t id status).log id = 1 ∧
    deliveriesFor (runFrom (grpc_transport_abort_stream t id status) cs).log id
      = deliveriesFor (grpc_transport_abort_stream t id status).log id := by
  have hrc : r.recvClosed = false := by
    cases hb : r.recvClosed with
    | false => rfl
    | true => exact absurd ((state_eq_closed_iff r).mpr ⟨h.recvSend id r hl hb, hb⟩) hopen
  have hnc : hasClosedFor t.log id = false := by
    cases hb : hasClosedFor t.log id with
    | false => rfl
    | true =>
      have := h.closedRecv id r hl hb
      rw [hrc] at this
      cases this
  have hlog : (grpc_transport_abort_stream t id status).log
      = t.log ++ [⟨id, [], .GRPC_STREAM_CLOSED⟩] := by
    rw [abort_eq t id status r hl hopen]
  have h1 : deliveriesFor (grpc_transport_abort_stream t id status).log id
      = deliveriesFor t.log id ++ [⟨id, [], .GRPC_STREAM_CLOSED⟩] := by
    rw [hlog, deliveriesFor_append, deliveriesFor_single_self _ id rfl]
  have hhc : hasClosedFor (grpc_transport_abort_stream t id status).log id = true := by
    rw [hlog, hasClosedFor_append]
    simp [hasClosedFor]
  refine ⟨h1, ?_, ?_⟩
  · rw [hlog, closedCount_append, closedCount_eq_zero t.log id hnc]
    simp [closedCount]
  · exact frozen_runFrom (grpc_transport_abort_stream t id status) cs id
      (inv_abort t id status h) hhc

/-- Witness for C2 at a concrete run: aborting freshly initialized stream 1
logs exactly one terminal delivery. -/
theorem C2_witness :
    closedCount (grpc_transport_abort_stream (run [Cmd.initStream 1 none]) 1 7).log 1 = 1 :=
  (C2_abort_terminal_delivery (run [Cmd.initStream 1 none]) 1 7
      [Cmd.deliver 1, Cmd.sendBatch 1 [] true, Cmd.closeTransport]
      (inv_run [Cmd.initStream 1 none]) freshStream (by decide) (by decide)).2.1

/-! ## Claim C3 -/

theorem deliveriesFor_single_ne (d : Delivery) (id : Nat) (h : d.stream ≠ id) :
    deliveriesFor [d] id = [] := by
  simp [deliveriesFor, h]

theorem closedCount_via_deliveries (l : List Delivery) (id : Nat) :
    closedCount l id = closedCount (deliveriesFor l id) id := by
  induction l with
  | nil => rfl
  | cons d rest ih =>
    by_cases hs : d.stream = id
    · by_cases hc : d.final_state = grpc_stream_state.GRPC_STREAM_CLOSED
      · simp [closedCount, deliveriesFor, hs, hc, ih]
      · simp [closedCount, deliveriesFor, hs, hc, ih]
    · simp [closedCount, deliveriesFor, hs, ih]

theorem abort_deliveries_other (t : Transport) (k st id : Nat) (hne : id ≠ k) :
    deliveriesFor (grpc_transport_abort_stream t k st).log id
      = deliveriesFor t.log id := by
  cases hl : lookupStream t.streams k with
  | none => rw [abort_noop_none t k st hl]
  | some r =>
    by_cases hcl : r.state = grpc_stream_state.GRPC_STREAM_CLOSED
    · rw [abort_noop_closed t k st r hl hcl]
    · rw [abort_eq t k st r hl hcl]
      have hgoal : deliveriesFor
          (t.log ++ [(⟨k, [], .GRPC_STREAM_CLOSED⟩ : Delivery)]) id
          = deliveriesFor t.log id := by
        rw [deliveriesFor_append, deliveriesFor_single_ne _ id (Ne.symm hne)]
        simp
      exact hgoal

/-- Aborting a list of streams containing an open stream appends exactly
its one terminal delivery to that stream's deliveries. -/
theorem abortAll_deliveries_open (keys : List Nat) (t : Transport) (id : Nat)
    (r : StreamRec) (h : Inv t) (hl : lookupStream t.streams id = some r)
    (hrc : r.recvClosed = false) (hmem : id ∈ keys) :
    deliveriesFor (abortAllKeys keys t).log id
      = deliveriesFor t.log id ++ [⟨id, [], .GRPC_STREAM_CLOSED⟩] := by
  induction keys generalizing t r with
  | nil => cases hmem
  | cons k rest ih =>
    rw [abortAll_cons]
    by_cases hk : k = id
    · subst hk
      have hopen : r.state ≠ grpc_stream_state.GRPC_STREAM_CLOSED := by
        intro hc
        rw [((state_eq_closed_iff r).mp hc).2] at hrc
        cases hrc
      have hlog : (grpc_transport_abort_stream t k 0).log
          = t.log ++ [⟨k, [], .GRPC_STREAM_CLOSED⟩] := by
        rw [abort_eq t k 0 r hl hopen]
      have hhc : hasClosedFor (grpc_transport_abort_stream t k 0).log k = true := by
        rw [hlog, hasClosedFor_append]
        simp [hasClosedFor]
      rw [frozen_abortAll rest (grpc_transport_abort_stream t k 0) k
          (inv_abort t k 0 h) hhc, hlog, deliveriesFor_append,
          deliveriesFor_single_self _ k rfl]
    · have hne : id ≠ k := fun he => hk he.symm
      have hmem' : id ∈ rest := by
        rcases List.mem_cons.mp hmem with he | hm
        · exact absurd he hne
        · exact hm
      have hl1 : lookupStream (grpc_transport_abort_stream t k 0).streams id = some r := by
        rw [abort_lookup_other t k 0 id hne]
        exact hl
      rw [ih (grpc_transport_abort_stream t k 0) r (inv_abort t k 0 h) hl1 hrc hmem',
          abort_deliveries_other t k 0 id hne]

theorem close_tclosed (t : Transport) : (grpc_transport_close t).tclosed = true := by
  by_cases htc : t.tclosed
  · rw [close_noop t htc]
    exact htc
  · have htc' : t.tclosed = false := by simpa using htc
    rw [close_eq t htc']

/-- C3: once `grpc_transport_close` runs, every live stream is CLOSED (none
remains OPEN), every previously open stream observes exactly one terminal
CLOSED delivery — also under any continuation of the run — and the `closed`
upcall has fired exactly once, never again. -/
theorem C3_close_aborts_all (t : Transport) (cs : List Cmd) (h : Inv t) :
    (∀ id r', lookupStream (grpc_transport_close t).streams id = some r' →
      r'.state = grpc_stream_state.GRPC_STREAM_CLOSED) ∧
    (∀ id r, lookupStream t.streams id = some r →
      r.state ≠ grpc_stream_state.GRPC_STREAM_CLOSED →
      closedCount (grpc_transport_close t).log id = 1 ∧
      closedCount (runFrom (grpc_transport_close t) cs).log id = 1) ∧
    (grpc_transport_close t).closedUpcalls = 1 ∧
    (runFrom (grpc_transport_close t) cs).closedUpcalls ≤ 1 := by
  refine ⟨?_, ?_, ?_, ?_⟩
  · intro id r' hl'
    exact (state_eq_closed_iff r').mpr
      ((inv_close t h).tclosedAll (close_tclosed t) id r' hl')
  · intro id r hl hopen
    by_cases htc : t.tclosed
    · exact absurd ((state_eq_closed_iff r).mpr (h.tclosedAll htc id r hl)) hopen
    · have htc' : t.tclosed = false := by simpa using htc
      have hrc : r.recvClosed = false := by
        cases hb : r.recvClosed with
        | false => rfl
        | true =>
          exact absurd ((state_eq_closed_iff r).mpr ⟨h.recvSend id r hl hb, hb⟩) hopen
      have hnc : hasClosedFor t.log id = false := by
        cases hb : hasClosedFor t.log id with
        | false => rfl
        | true =>
          have := h.closedRecv id r hl hb
          rw [hrc] at this
          cases this
      have hdel : deliveriesFor (grpc_transport_close t).log id
          = deliveriesFor t.log id ++ [⟨id, [], .GRPC_STREAM_CLOSED⟩] := by
        rw [close_eq t htc']
        exact abortAll_deliveries_open (t.streams.map Prod.fst) t id r h hl hrc
          (lookup_mem_keys t.streams id r hl)
      have hcount : closedCount (grpc_transport_close t).log id = 1 := by
        rw [closedCount_via_deliveries, hdel, closedCount_append,
            ← closedCount_via_deliveries, closedCount_eq_zero t.log id hnc]
        simp [closedCount]
      refine ⟨hcount, ?_⟩
      have hhc : hasClosedFor (grpc_transport_close t).log id = true := by
        cases hb : hasClosedFor (grpc_transport_close t).log id with
        | true => rfl
        | false =>
          rw [closedCount_eq_zero _ id hb] at hcount
          cases hcount
      rw [closedCount_via_deliveries,
          frozen_runFrom (grpc_transport_close t) cs id (inv_close t h) hhc,
          ← closedCount_via_deliveries]
      exact hcount
  · rw [(inv_close t h).upcalls, close_tclosed t]
    rfl
  · rw [(inv_runFrom (grpc_transport_close t) cs (inv_close t h)).upcalls]
    split <;> omega

/-- Witness for C3 at a concrete run: closing a transport with two open
streams logs exactly one terminal delivery for stream 1. -/
theorem C3_witness :
    closedCount (grpc_transport_close
        (run [Cmd.initStream 1 none, Cmd.initStream 2 none])).log 1 = 1 :=
  ((C3_close_aborts_all (run [Cmd.initStream 1 none, Cmd.initStream 2 none])
      [Cmd.deliver 1, Cmd.initStream 3 none]
      (inv_run [Cmd.initStream 1 none, Cmd.initStream 2 none])).2.1 1 freshStream
    (by decide) (by decide)).1

/-! ## Claim C6 -/

/-- Every delivery appended by a fold of aborts is terminal and reports the
stream's actual (CLOSED) state. -/
theorem abortAll_new_deliveries (keys : List Nat) (t : Transport) (h : Inv t) :
    ∀ d ∈ (abortAllKeys keys t).log.drop t.log.length,
      d.final_state = grpc_stream_state.GRPC_STREAM_CLOSED ∧
      stateOf (abortAllKeys keys t) d.stream
        = some grpc_stream_state.GRPC_STREAM_CLOSED := by
  induction keys generalizing t with
  | nil =>
    intro d hd
    have hd' : d ∈ t.log.drop t.log.length := hd
    rw [List.drop_length] at hd'
    cases hd'
  | cons k rest ih =>
    rw [abortAll_cons]
    cases hl : lookupStream t.streams k with
    | none =>
      rw [abort_noop_none t k 0 hl]
      exact ih t h
    | some r =>
      by_cases hcl : r.state = grpc_stream_state.GRPC_STREAM_CLOSED
      · rw [abort_noop_closed t k 0 r hl hcl]
        exact ih t h
      · have h1 : Inv (grpc_transport_abort_stream t k 0) := inv_abort t k 0 h
        obtain ⟨ds2, hds2⟩ :=
          abortAll_log_extends rest (grpc_transport_abort_stream t k 0)
        have hlog1 : (grpc_transport_abort_stream t k 0).log
            = t.log ++ [⟨k, [], .GRPC_STREAM_CLOSED⟩] := by
          rw [abort_eq t k 0 r hl hcl]
        have hcls : lookupStream (grpc_transport_abort_stream t k 0).streams k
            = some (closeRec r) := by
          rw [abort_eq t k 0 r hl hcl]
          have hg : lookupStream (updateStream t.streams k (closeRec r)) k
              = some (closeRec r) := by
            rw [lookup_update_self, hl, Option.map_some']
          exact hg
        intro d hd
        rw [hds2, hlog1, List.append_assoc, List.drop_left] at hd
        cases List.mem_append.mp hd with
        | inl hd1 =>
          rw [List.mem_singleton] at hd1
          subst hd1
          refine ⟨rfl, ?_⟩
          have hstay := abortAll_closed_stays rest (grpc_transport_abort_stream t k 0)
            k (closeRec r) hcls rfl rfl
          rw [stateOf, hstay, Option.map_some', closeRec_state]
        | inr hd2 =>
          have := ih (grpc_transport_abort_stream t k 0) h1 d
            (by rw [hds2, hlog1]
                have hlen : (t.log ++ [(⟨k, [], .GRPC_STREAM_CLOSED⟩ : Delivery)]).length
                    = t.log.length + 1 := by simp
                rw [List.drop_left]
                exact hd2)
          exact this

/-- C6: every `recv_batch` delivery reports a `final_state` equal to the
state machine's actual post-batch state of that stream; the log is
append-only, so deliveries of one stream are observed strictly in the
order the transport produced them; and the delivery carrying
`final_state = GRPC_STREAM_CLOSED` is always the last one for its stream. -/
theorem C6_final_state_and_ordering (t : Transport) (c : Cmd) (cs : List Cmd)
    (h : Inv t) :
    (∀ d ∈ (step t c).log.drop t.log.length,
      stateOf (step t c) d.stream = some d.final_state) ∧
    (∃ ds, (step t c).log = t.log ++ ds) ∧
    closedIsLast (run cs).log = true := by
  refine ⟨?_, step_log_extends t c, (inv_run cs).lastClosed⟩
  cases c with
  | initStream id sd =>
    intro d hd
    rw [step, init_log, List.drop_length] at hd
    cases hd
  | sendBatch id ops il =>
    intro d hd
    rw [step, send_log, List.drop_length] at hd
    cases hd
  | deliver id =>
    intro d hd
    rw [step] at hd ⊢
    cases hl : lookupStream t.streams id with
    | none =>
      rw [deliver_noop_none t id hl, List.drop_length] at hd
      cases hd
    | some r =>
      cases hrc : r.recvClosed with
      | true =>
        rw [deliver_noop_recvClosed t id r hl hrc, List.drop_length] at hd
        cases hd
      | false =>
        cases hp : r.pending with
        | nil =>
          rw [deliver_noop_empty t id r hl hp, List.drop_length] at hd
          cases hd
        | cons b rest =>
          rw [deliver_eq t id r b rest hl hrc hp] at hd ⊢
          have hd' : d ∈ (t.log ++
              [(⟨id, b.ops, streamStateOf r.sendClosed b.is_last⟩ : Delivery)]).drop
                t.log.length := hd
          rw [List.drop_left, List.mem_singleton] at hd'
          subst hd'
          have hg : lookupStream
              (updateStream t.streams id ({ r with pending := rest, recvClosed := b.is_last }))
              id = some ({ r with pending := rest, recvClosed := b.is_last }) := by
            rw [lookup_update_self, hl, Option.map_some']
          rw [stateOf]
          show Option.map StreamRec.state (lookupStream
            (updateStream t.streams id
              ({ r with pending := rest, recvClosed := b.is_last })) id) = _
          rw [hg, Option.map_some']
          rfl
  | abortStream id st =>
    intro d hd
    rw [step] at hd ⊢
    cases hl : lookupStream t.streams id with
    | none =>
      rw [abort_noop_none t id st hl, List.drop_length] at hd
      cases hd
    | some r =>
      by_cases hcl : r.state = grpc_stream_state.GRPC_STREAM_CLOSED
      · rw [abort_noop_closed t id st r hl hcl, List.drop_length] at hd
        cases hd
      · rw [abort_eq t id st r hl hcl] at hd ⊢
        have hd' : d ∈ (t.log ++
            [(⟨id, [], .GRPC_STREAM_CLOSED⟩ : Delivery)]).drop t.log.length := hd
        rw [List.drop_left, List.mem_singleton] at hd'
        subst hd'
        have hg : lookupStream (updateStream t.streams id (closeRec r)) id
            = some (closeRec r) := by
          rw [lookup_update_self, hl, Option.map_some']
        rw [stateOf]
        show Option.map StreamRec.state
          (lookupStream (updateStream t.streams id (closeRec r)) id) = _
        rw [hg, Option.map_some', closeRec_state]
  | setAllowWindowUpdates id a =>
    intro d hd
    rw [step, setAllow_log, List.drop_length] at hd
    cases hd
  | grantWindow id n =>
    intro d hd
    rw [step, grant_log, List.drop_length] at hd
    cases hd
  | acceptStream d0 =>
    intro d hd
    have hd' : d ∈ t.log.drop t.log.length := hd
    rw [List.drop_length] at hd'
    cases hd'
  | closeTransport =>
    intro d hd
    rw [step] at hd ⊢
    by_cases htc : t.tclosed
    · rw [close_noop t htc, List.drop_length] at hd
      cases hd
    · have htc' : t.tclosed = false := by simpa using htc
      rw [close_eq t htc'] at hd ⊢
      have := (abortAll_new_deliveries (t.streams.map Prod.fst) t h d hd).2
      rw [(abortAll_new_deliveries (t.streams.map Prod.fst) t h d hd).1]
      exact this
  | destroyStream id =>
    intro d hd
    rw [step, destroy_log, List.drop_length] at hd
    cases hd

/-- Witness for C6 at a concrete run: the terminal delivery is last in
the log of a run that sends, delivers and aborts on stream 1. -/
theorem C6_witness :
    closedIsLast (run [Cmd.initStream 1 none, Cmd.sendBatch 1 [StreamOp.recvRequest] false,
      Cmd.deliver 1, Cmd.abortStream 1 0]).log = true :=
  (C6_final_state_and_ordering (run [Cmd.initStream 1 none]) (Cmd.deliver 1)
      [Cmd.initStream 1 none, Cmd.sendBatch 1 [StreamOp.recvRequest] false,
       Cmd.deliver 1, Cmd.abortStream 1 0]
      (inv_run [Cmd.initStream 1 none])).2.2

/-! ## Claim C4 -/

/-- Submit a sequence of (non-final) batches on one stream, in order. -/
def sendAll (t : Transport) (id : Nat) (bss : List (List StreamOp)) : Transport :=
  bss.foldl (fun acc ops => grpc_transport_send_batch acc id ops false) t

theorem sendAll_cons (t : Transport) (id : Nat) (ops : List StreamOp)
    (rest : List (List StreamOp)) :
    sendAll t id (ops :: rest)
      = sendAll (grpc_transport_send_batch t id ops false) id rest := rfl

/-- Let the loopback transport transmit and deliver `n` pending batches of
one stream. -/
def deliverTimes (t : Transport) (id : Nat) : Nat → Transport
  | 0 => t
  | n + 1 => deliverTimes (deliverPending t id) id n

/-- Submitting batches appends them, in order, to the stream's queue. -/
theorem sendAll_spec (bss : List (List StreamOp)) (t : Transport) (id : Nat)
    (rc al : Bool) (w : Nat) (pd : List Batch)
    (hl : lookupStream t.streams id = some ⟨false, rc, al, w, pd⟩) :
    lookupStream (sendAll t id bss).streams id
      = some ⟨false, rc, al, w, pd ++ bss.map (fun ops => (⟨ops, false⟩ : Batch))⟩ ∧
    (sendAll t id bss).log = t.log := by
  induction bss generalizing t pd with
  | nil => exact ⟨by simpa using hl, rfl⟩
  | cons ops rest ih =>
    rw [sendAll_cons]
    have hl1 : lookupStream (grpc_transport_send_batch t id ops false).streams id = some (⟨false, rc, al, w, pd ++ [⟨ops, false⟩]⟩ : StreamRec) := by
      rw [send_eq t id ops false _ hl rfl]
      have hcore : lookupStream (updateStream t.streams id ({ (⟨false, rc, al, w, pd⟩ : StreamRec) with sendClosed := false, pending := pd ++ [⟨ops, false⟩] })) id = some ({ (⟨false, rc, al, w, pd⟩ : StreamRec) with sendClosed := false, pending := pd ++ [⟨ops, false⟩] }) := by
        rw [lookup_update_self, hl, Option.map_some']
      exact hcore
    have hlog1 : (grpc_transport_send_batch t id ops false).log = t.log :=
      send_log t id ops false
    obtain ⟨h1, h2⟩ := ih (grpc_transport_send_batch t id ops false) (pd ++ [⟨ops, false⟩]) hl1
    refine ⟨?_, h2.trans hlog1⟩
    rw [h1]
    simp [List.append_assoc]

/-- Draining a queue of non-final batches delivers exactly those batches,
in order, each reporting the unchanged post-batch state. -/
theorem deliverTimes_spec (ps : List Batch) (t : Transport) (id : Nat)
    (sc al : Bool) (w : Nat)
    (hl : lookupStream t.streams id = some ⟨sc, false, al, w, ps⟩)
    (hall : ∀ b ∈ ps, b.is_last = false) :
    (deliverTimes t id ps.length).log
      = t.log ++ ps.map (fun b => (⟨id, b.ops, streamStateOf sc false⟩ : Delivery)) := by
  induction ps generalizing t w with
  | nil => simp [deliverTimes]
  | cons b rest ih =>
    have hbl : b.is_last = false := hall b (List.mem_cons_self b rest)
    have hl1 : lookupStream (deliverPending t id).streams id = some (⟨sc, false, al, w, rest⟩ : StreamRec) := by
      rw [deliver_eq t id _ b rest hl rfl rfl, hbl]
      have hcore : lookupStream (updateStream t.streams id ({ (⟨sc, false, al, w, b :: rest⟩ : StreamRec) with pending := rest, recvClosed := false })) id = some ({ (⟨sc, false, al, w, b :: rest⟩ : StreamRec) with pending := rest, recvClosed := false }) := by
        rw [lookup_update_self, hl, Option.map_some']
      exact hcore
    have hlog1 : (deliverPending t id).log = t.log ++ [⟨id, b.ops, streamStateOf sc false⟩] := by
      rw [deliver_eq t id _ b rest hl rfl rfl, hbl]
    show (deliverTimes (deliverPending t id) id rest.length).log = _
    rw [ih (deliverPending t id) w hl1 (fun b' hb' => hall b' (List.mem_cons_of_mem b hb')),
        hlog1]
    simp [List.append_assoc]

theorem deliveriesFor_all_id (l : List Delivery) (id : Nat)
    (h : ∀ d ∈ l, d.stream = id) : deliveriesFor l id = l := by
  induction l with
  | nil => rfl
  | cons d rest ih =>
    rw [deliveriesFor, if_pos (h d (List.mem_cons_self d rest))]
    rw [ih (fun d' hd' => h d' (List.mem_cons_of_mem d hd'))]

/-- C4: in the loopback transport, submitting a sequence of batches on an
open stream and letting the transport transmit them delivers exactly the
same operation content in the same order (ownership-transfer round-trip
fidelity). -/
theorem C4_loopback_fidelity (t : Transport) (id : Nat) (bss : List (List StreamOp))
    (al : Bool) (w : Nat)
    (hl : lookupStream t.streams id = some ⟨false, false, al, w, []⟩) :
    (deliveriesFor (deliverTimes (sendAll t id bss) id bss.length).log id).map Delivery.ops
      = (deliveriesFor t.log id).map Delivery.ops ++ bss := by
  obtain ⟨h1, h2⟩ := sendAll_spec bss t id false al w [] hl
  rw [List.nil_append] at h1
  have hlen : bss.length = (bss.map (fun ops => (⟨ops, false⟩ : Batch))).length := by
    rw [List.length_map]
  rw [hlen]
  rw [deliverTimes_spec (bss.map (fun ops => (⟨ops, false⟩ : Batch)))
      (sendAll t id bss) id false al w h1
      (by intro b hb
          obtain ⟨ops, _, hops⟩ := List.mem_map.mp hb
          rw [← hops])]
  rw [h2, deliveriesFor_append, List.map_append]
  have hall : ∀ d ∈ (bss.map (fun ops => (⟨ops, false⟩ : Batch))).map
      (fun b => (⟨id, b.ops, streamStateOf false false⟩ : Delivery)), d.stream = id := by
    intro d hd
    obtain ⟨b, _, hb⟩ := List.mem_map.mp hd
    rw [← hb]
  rw [deliveriesFor_all_id _ id hall, List.map_map, List.map_map]
  show (deliveriesFor t.log id).map Delivery.ops ++ bss.map (fun ops => ops)
    = (deliveriesFor t.log id).map Delivery.ops ++ bss
  rw [List.map_id']

/-- Witness for C4 at a concrete run: two batches submitted on stream 1 of
a fresh transport come back with the same content and order. -/
theorem C4_witness :
    (deliveriesFor (deliverTimes (sendAll (run [Cmd.initStream 1 none]) 1
        [[StreamOp.sendData [1, 2]], [StreamOp.sendStatus 0]]) 1
        ([[StreamOp.sendData [1, 2]], [StreamOp.sendStatus 0]] :
          List (List StreamOp)).length).log 1).map Delivery.ops
      = (deliveriesFor (run [Cmd.initStream 1 none]).log 1).map Delivery.ops
        ++ [[StreamOp.sendData [1, 2]], [StreamOp.sendStatus 0]] :=
  C4_loopback_fidelity (run [Cmd.initStream 1 none]) 1
    [[StreamOp.sendData [1, 2]], [StreamOp.sendStatus 0]] true 0 (by decide)

/-! ## Claim C5 -/

/-- C5: disabling window updates on a stream only clears its gate flag: no
delivery is lost (the log is untouched and the stream's queue, closed flags
and window survive), the transport stops granting new window, data already
queued under previously granted window is still delivered through normal
batch delivery, and toggling the gate is symmetric and idempotent. -/
theorem C5_window_gate (t : Transport) (id : Nat) (r : StreamRec)
    (hl : lookupStream t.streams id = some r) :
    (grpc_transport_set_allow_window_updates t id false).log = t.log ∧
    lookupStream (grpc_transport_set_allow_window_updates t id false).streams id
      = some ({ r with allow := false }) ∧
    (∀ n, grantWindow (grpc_transport_set_allow_window_updates t id false) id n
        = grpc_transport_set_allow_window_updates t id false) ∧
    (∀ b rest, r.pending = b :: rest → r.recvClosed = false →
      (deliverPending (grpc_transport_set_allow_window_updates t id false) id).log
        = t.log ++ [⟨id, b.ops, streamStateOf r.sendClosed b.is_last⟩]) ∧
    (∀ a, grpc_transport_set_allow_window_updates
        (grpc_transport_set_allow_window_updates t id a) id a
      = grpc_transport_set_allow_window_updates t id a) ∧
    grpc_transport_set_allow_window_updates
        (grpc_transport_set_allow_window_updates t id false) id true
      = grpc_transport_set_allow_window_updates t id true := by
  have hl2 : ∀ a : Bool, lookupStream (grpc_transport_set_allow_window_updates t id a).streams id = some ({ r with allow := a }) := by
    intro a
    rw [setAllow_eq t id a r hl]
    have hcore : lookupStream (updateStream t.streams id ({ r with allow := a })) id = some ({ r with allow := a }) := by
      rw [lookup_update_self, hl, Option.map_some']
    exact hcore
  refine ⟨setAllow_log t id false, hl2 false, ?_, ?_, ?_, ?_⟩
  · intro n
    exact grant_noop_disallowed (grpc_transport_set_allow_window_updates t id false)
      id n ({ r with allow := false }) (hl2 false) rfl
  · intro b rest hp hrc
    have hrc' : ({ r with allow := false } : StreamRec).recvClosed = false := hrc
    have hp' : ({ r with allow := false } : StreamRec).pending = b :: rest := hp
    rw [deliver_eq (grpc_transport_set_allow_window_updates t id false) id
        ({ r with allow := false }) b rest (hl2 false) hrc' hp']
    rw [setAllow_eq t id false r hl]
  · intro a
    rw [setAllow_eq (grpc_transport_set_allow_window_updates t id a) id a
        ({ r with allow := a }) (hl2 a), setAllow_eq t id a r hl]
    have hcore : updateStream (updateStream t.streams id ({ r with allow := a })) id ({ ({ r with allow := a } : StreamRec) with allow := a }) = updateStream t.streams id ({ r with allow := a }) := by
      rw [update_update]
    rw [hcore]
  · rw [setAllow_eq (grpc_transport_set_allow_window_updates t id false) id true
        ({ r with allow := false }) (hl2 false), setAllow_eq t id false r hl,
        setAllow_eq t id true r hl]
    have hcore : updateStream (updateStream t.streams id ({ r with allow := false })) id ({ ({ r with allow := false } : StreamRec) with allow := true }) = updateStream t.streams id ({ ({ r with allow := false } : StreamRec) with allow := true }) := by
      rw [update_update]
    rw [hcore]

/-- Witness for C5 at a concrete run: after disabling the gate on stream 1,
granting new window is a no-op. -/
theorem C5_witness :
    grantWindow (grpc_transport_set_allow_window_updates
        (run [Cmd.initStream 1 none]) 1 false) 1 64
      = grpc_transport_set_allow_window_updates (run [Cmd.initStream 1 none]) 1 false :=
  ((C5_window_gate (run [Cmd.initStream 1 none]) 1 freshStream (by decide)).2.2.1) 64

/-! ## Claim C7 -/

/-- C7: `grpc_transport_init_stream` returns 0 exactly on success and a
non-zero code otherwise; `server_data = none` denotes a client-initiated
stream (no accept token involved), while `some d` succeeds only when `d`
is a token previously supplied by an `accept_stream` upcall, and consumes
it — a token present once is gone after use, so it cannot be consumed
twice; on failure the transport is unchanged and the uninitialized stream
is unusable: submitting a batch on it does nothing. -/
theorem C7_init_stream_contract (t : Transport) (id : Nat) (sd : Option Nat) :
    ((grpc_transport_init_stream t id sd).2 = 0 ↔
      (t.tclosed = false ∧ id ∉ t.used ∧
        (sd = none ∨ ∃ d, sd = some d ∧ d ∈ t.tokens))) ∧
    ((grpc_transport_init_stream t id sd).2 = 0 ∨
      (grpc_transport_init_stream t id sd).2 = 1) ∧
    (sd = none → (grpc_transport_init_stream t id sd).1.tokens = t.tokens) ∧
    (∀ d, sd = some d → (grpc_transport_init_stream t id sd).2 = 0 →
      (grpc_transport_init_stream t id sd).1.tokens = t.tokens.erase d) ∧
    (∀ d, sd = some d → (grpc_transport_init_stream t id sd).2 = 0 →
      t.tokens.count d = 1 → d ∉ (grpc_transport_init_stream t id sd).1.tokens) ∧
    ((grpc_transport_init_stream t id sd).2 ≠ 0 →
      (grpc_transport_init_stream t id sd).1 = t ∧
      (lookupStream t.streams id = none →
        ∀ ops il, grpc_transport_send_batch (grpc_transport_init_stream t id sd).1 id ops il
          = (grpc_transport_init_stream t id sd).1)) := by
  have hone : (1 : Int) ≠ 0 := by decide
  by_cases htc : t.tclosed
  · rw [init_fail_tclosed t id sd htc]
    refine ⟨?_, Or.inr rfl, fun _ => rfl, ?_, ?_, ?_⟩
    · constructor
      · intro h0
        exact absurd h0 hone
      · rintro ⟨h1, -⟩
        rw [htc] at h1
        cases h1
    · intro d hd h0
      exact absurd h0 hone
    · intro d hd h0
      exact absurd h0 hone
    · intro _
      exact ⟨rfl, fun hln ops il => send_noop_none t id ops il hln⟩
  · have htc' : t.tclosed = false := by simpa using htc
    by_cases hu : id ∈ t.used
    · rw [init_fail_used t id sd htc' hu]
      refine ⟨?_, Or.inr rfl, fun _ => rfl, ?_, ?_, ?_⟩
      · constructor
        · intro h0
          exact absurd h0 hone
        · rintro ⟨-, h2, -⟩
          exact absurd hu h2
      · intro d hd h0
        exact absurd h0 hone
      · intro d hd h0
        exact absurd h0 hone
      · intro _
        exact ⟨rfl, fun hln ops il => send_noop_none t id ops il hln⟩
    · cases sd with
      | none =>
        rw [init_ok_client t id htc' hu]
        refine ⟨?_, Or.inl rfl, fun _ => rfl, ?_, ?_, fun hne => absurd rfl hne⟩
        · exact ⟨fun _ => ⟨htc', hu, Or.inl rfl⟩, fun _ => rfl⟩
        · intro d hd
          cases hd
        · intro d hd
          cases hd
      | some d0 =>
        by_cases hd0 : d0 ∈ t.tokens
        · rw [init_ok_server t id d0 htc' hu hd0]
          refine ⟨⟨fun _ => ⟨htc', hu, Or.inr ⟨d0, rfl, hd0⟩⟩, fun _ => rfl⟩,
            Or.inl rfl, ?_, ?_, ?_, fun hne => absurd rfl hne⟩
          · intro hn
            cases hn
          · intro d hd _
            injection hd with hd
            rw [← hd]
          · intro d hd _ hcount
            injection hd with hd
            subst hd
            have hz : (t.tokens.erase d0).count d0 = 0 := by
              rw [List.count_erase_self, hcount]
            rw [← List.count_eq_zero]
            exact hz
        · rw [init_fail_token t id d0 htc' hu hd0]
          refine ⟨?_, Or.inr rfl, ?_, ?_, ?_, ?_⟩
          · constructor
            · intro h0
              exact absurd h0 hone
            · rintro ⟨-, -, hor⟩
              cases hor with
              | inl h => cases h
              | inr h =>
                obtain ⟨d, hd, hmem⟩ := h
                injection hd with hd
                subst hd
                exact absurd hmem hd0
          · intro hn
            cases hn
          · intro d hd h0
            exact absurd h0 hone
          · intro d hd h0
            exact absurd h0 hone
          · intro _
            exact ⟨rfl, fun hln ops il => send_noop_none t id ops il hln⟩

/-! ## Claim C8 -/

/-- Modelled from the spec: the observable state of a Transport Setup
(transport.h lines 230-255) — whether `cancel` has run, whether a
setup-result callback is in flight, how many Transports have been
produced, and how many times the setup-result callback has completed. -/
structure TransportSetup : Type where
  cancelled : Bool
  pending : Bool
  produced : Nat
  callbackRuns : Nat
deriving DecidableEq, Repr

/-- Modelled from the spec: `grpc_transport_setup_initiate` (transport.h
lines 244-250) begins asynchronous connection establishment, putting a
setup-result callback in flight, unless setup was cancelled (or one is
already in flight). -/
def grpc_transport_setup_initiate (s : TransportSetup) : TransportSetup :=
  if s.cancelled || s.pending then s else { s with pending := true }

/-- Modelled from the spec: connection establishment completes and the
pending setup-result callback runs; it produces a new Transport only when
setup has not been cancelled. -/
def setupConnectDone (s : TransportSetup) : TransportSetup :=
  if s.pending then
    { s with pending := false, callbackRuns := s.callbackRuns + 1,
             produced := if s.cancelled then s.produced else s.produced + 1 }
  else s

/-- Modelled from the spec: `grpc_transport_setup_cancel` (transport.h
lines 251-255): after it returns no new transports are created, and all
pending transport setup callbacks are completed (here: as part of the
cancellation itself, without producing a Transport). -/
def grpc_transport_setup_cancel (s : TransportSetup) : TransportSetup :=
  if s.pending then
    { s with cancelled := true, pending := false, callbackRuns := s.callbackRuns + 1 }
  else { s with cancelled := true }

/-- The events of the setup model. -/
inductive SetupCmd : Type
  | initiate
  | connectDone
  | cancelSetup
deriving DecidableEq, Repr

/-- One step of the setup model. -/
def setupStep (s : TransportSetup) : SetupCmd → TransportSetup
  | .initiate => grpc_transport_setup_initiate s
  | .connectDone => setupConnectDone s
  | .cancelSetup => grpc_transport_setup_cancel s

/-- Run the setup model. -/
def setupRun (s : TransportSetup) (cs : List SetupCmd) : TransportSetup := cs.foldl setupStep s

/-- A cancelled setup with no pending callback is inert: no event changes
it again. -/
theorem setupRun_frozen (cs : List SetupCmd) (s : TransportSetup)
    (hc : s.cancelled = true) (hp : s.pending = false) :
    setupRun s cs = s := by
  have hstep : ∀ c, setupStep s c = s := by
    intro c
    cases c with
    | initiate =>
      show grpc_transport_setup_initiate s = s
      rw [grpc_transport_setup_initiate, hc]
      rfl
    | connectDone =>
      show setupConnectDone s = s
      rw [setupConnectDone, hp]
      rfl
    | cancelSetup =>
      show grpc_transport_setup_cancel s = s
      cases s with
      | mk c p pr cr =>
        have hc' : c = true := hc
        have hp' : p = false := hp
        subst hc'
        subst hp'
        rfl
  induction cs with
  | nil => rfl
  | cons c rest ih =>
    show setupRun (setupStep s c) rest = s
    rw [hstep c]
    exact ih

/-- C8: after `grpc_transport_setup_cancel` returns, no setup callback is
left pending — an in-flight one completed as part of the cancellation —
no new Transport has been produced by the cancellation, and no sequence of
later events ever produces one (nor leaves anything pending). -/
theorem C8_setup_cancel (s : TransportSetup) (cs : List SetupCmd) :
    (grpc_transport_setup_cancel s).pending = false ∧
    (grpc_transport_setup_cancel s).callbackRuns
      = s.callbackRuns + (if s.pending then 1 else 0) ∧
    (grpc_transport_setup_cancel s).produced = s.produced ∧
    (setupRun (grpc_transport_setup_cancel s) cs).produced = s.produced ∧
    (setupRun (grpc_transport_setup_cancel s) cs).pending = false := by
  have hc : (grpc_transport_setup_cancel s).cancelled = true := by
    rw [grpc_transport_setup_cancel]
    cases hp : s.pending <;> rfl
  have hp : (grpc_transport_setup_cancel s).pending = false := by
    rw [grpc_transport_setup_cancel]
    cases hps : s.pending <;> rfl
  have hcb : (grpc_transport_setup_cancel s).callbackRuns
      = s.callbackRuns + (if s.pending then 1 else 0) := by
    rw [grpc_transport_setup_cancel]
    cases hps : s.pending <;> simp [hps]
  have hpr : (grpc_transport_setup_cancel s).produced = s.produced := by
    rw [grpc_transport_setup_cancel]
    cases hps : s.pending <;> rfl
  rw [setupRun_frozen cs (grpc_transport_setup_cancel s) hc hp]
  exact ⟨hp, hcb, hpr, hpr, hp⟩

/-! ## Claim C9 -/

/-- Embeds `grpc_transport_setup_result` (transport.h lines 219-223): the
pair of the user data pointer and the Callback Contract returned by the
setup callback, generic over the pointed-to types. -/
structure grpc_transport_setup_result (UserData Callbacks : Type) : Type where
  user_data : UserData
  callbacks : Callbacks

/-- Embeds `grpc_transport_setup_callback` (transport.h lines 225-228): the
setup-result callback takes the setup argument, the freshly created
transport AND a metadata context (`grpc_mdctx *`), and returns a
`grpc_transport_setup_result`. -/
def grpc_transport_setup_callback (SetupArg Tr MdCtx UserData Callbacks : Type) : Type :=
  SetupArg → Tr → MdCtx → grpc_transport_setup_result UserData Callbacks

/-- The callback type the claim states: `(setup_arg, transport) ->
(user_data, CallbackContract)`, with no metadata-context argument. -/
def specSetupCallbackType (SetupArg Tr UserData Callbacks : Type) : Type :=
  SetupArg → Tr → grpc_transport_setup_result UserData Callbacks

/-- C9 counterexample: the declared callback type is not the two-argument
type the claim states — instantiating `SetupArg = Tr = Unit`,
`MdCtx = Empty`, `UserData = Callbacks = Bool`, the declared type and the
claimed type are not even equivalent (the former has one inhabitant, the
latter four). -/
theorem C9_counterexample :
    ¬ Nonempty (grpc_transport_setup_callback Unit Unit Empty Bool Bool ≃
      specSetupCallbackType Unit Unit Bool Bool) := by
  rintro ⟨e⟩
  have h1 : e.symm (fun _ _ => ⟨true, true⟩) = e.symm (fun _ _ => ⟨false, false⟩) := by
    funext a b x
    cases x
  have h2 : (fun _ _ => (⟨true, true⟩ : grpc_transport_setup_result Bool Bool))
      = (fun _ _ => (⟨false, false⟩ : grpc_transport_setup_result Bool Bool)) :=
    e.symm.injective h1
  have h3 := congrArg grpc_transport_setup_result.user_data (congrFun (congrFun h2 ()) ())
  exact Bool.noConfusion h3

/-- C9 (amended): the setup-result callback bound to a Transport Setup has
type `(setup_arg, transport, mdctx) -> (user_data, CallbackContract)`: it
takes the setup argument, the freshly created Transport and a metadata
context, and returns a user-data pointer paired with the Callback Contract
that will drive that Transport's upcalls. -/
theorem C9_setup_callback_type (SetupArg Tr MdCtx UserData Callbacks : Type) :
    Nonempty (grpc_transport_setup_callback SetupArg Tr MdCtx UserData Callbacks ≃
      (SetupArg × Tr × MdCtx → UserData × Callbacks)) := by
  refine ⟨⟨fun f p => ((f p.1 p.2.1 p.2.2).user_data, (f p.1 p.2.1 p.2.2).callbacks),
           fun g a b m => ⟨(g (a, b, m)).1, (g (a, b, m)).2⟩, ?_, ?_⟩⟩
  · intro f
    rfl
  · intro g
    rfl

/-! ## Claim C10 -/

/-- Models the C calling convention of `grpc_transport_send_batch`
(transport.h lines 172-186): `ops` is a possibly-NULL pointer to an array
of `ops_count` operations — "can be NULL if ops_count == 0". NULL with a
non-zero count, or a count disagreeing with the array, is an invalid
call. -/
def grpc_transport_send_batch_c (t : Transport) (id : Nat)
    (ops : Option (List StreamOp)) (ops_count : Nat) (is_last : Bool) :
    Option Transport :=
  match ops with
  | some l =>
    if l.length = ops_count then some (grpc_transport_send_batch t id l is_last) else none
  | none =>
    if ops_count = 0 then some (grpc_transport_send_batch t id [] is_last) else none

/-- C10: the public send surface accepts an empty batch: a NULL ops array
with `ops_count = 0` is a valid call (not an error), equivalent to
submitting the empty batch, and such a batch still carries its `is_last`
flag through to the stream. -/
theorem C10_send_batch_null_ops (t : Transport) (id : Nat) (is_last : Bool)
    (r : StreamRec) (hl : lookupStream t.streams id = some r)
    (hsc : r.sendClosed = false) :
    grpc_transport_send_batch_c t id none 0 is_last
      = some (grpc_transport_send_batch t id [] is_last) ∧
    grpc_transport_send_batch_c t id none 0 is_last ≠ none ∧
    lookupStream (grpc_transport_send_batch t id [] is_last).streams id
      = some ({ r with sendClosed := is_last, pending := r.pending ++ [⟨[], is_last⟩] }) := by
  refine ⟨rfl, by simp [grpc_transport_send_batch_c], ?_⟩
  rw [send_eq t id [] is_last r hl hsc]
  have hcore : lookupStream (updateStream t.streams id ({ r with sendClosed := is_last, pending := r.pending ++ [⟨[], is_last⟩] })) id = some ({ r with sendClosed := is_last, pending := r.pending ++ [⟨[], is_last⟩] }) := by
    rw [lookup_update_self, hl, Option.map_some']
  exact hcore

/-- Witness for C10 at a concrete run: the NULL empty batch is accepted on
stream 1 of a fresh transport. -/
theorem C10_witness :
    grpc_transport_send_batch_c (run [Cmd.initStream 1 none]) 1 none 0 true
      = some (grpc_transport_send_batch (run [Cmd.initStream 1 none]) 1 [] true) :=
  (C10_send_batch_null_ops (run [Cmd.initStream 1 none]) 1 true freshStream
    (by decide) rfl).1

end GrpcTransport
